import Mathlib

/-!
Shallow embedding of the lox interpreter core (repository eugecm/lox):
the AST produced by the parser (src/syntax.rs), the runtime value model
(src/types.rs), environments (src/environment.rs), classes and instances
(src/class.rs), user functions (src/callable.rs), the static resolver
(src/resolver.rs) and the tree-walking interpreter (src/interpreter.rs).

Modelling conventions:
* Rust `Rc<RefCell<...>>` shared mutable cells (environments and instance
  field tables) are modelled as indices into heaps carried by an explicit
  `State`; copying a value copies the index, so sharing by reference is
  preserved exactly.
* Rust panics are modelled as `Err.fatal`; the `Flow<T> = Result<T, T>`
  return-signal channel of the interpreter is the separate type `Flow`.
* All recursive interpreter and resolver functions take a fuel parameter
  and answer `Err.noFuel` when it runs out; running out of fuel is never
  identified with a fatal error of the program.
* Lox numbers are `f64` in the source; they are modelled as `Rat`. No
  claim in this development depends on floating-point rounding, NaN or
  infinities (division is never exercised).
* `HashMap` tables are modelled as association lists with insert-replaces
  semantics; iteration order of the source maps is never observable in
  the properties proved here.
* The single native builtin (`clock`, src/builtins.rs) reads the wall
  clock and is not modelled; no claim mentions it. The globals table
  therefore starts empty.
-/

namespace Lox

/-- Identifiers are interned strings compared by text (src/types.rs `Identifier`). -/
abbrev Ident := String

/-- Token kinds from src/scanner.rs that the embedded fragments inspect. -/
inductive TokenType where
  | minus | plus | slash | star | bang
  | bangEqual | equalEqual | greater | greaterEqual | less | lessEqual
  | orT | andT
  | leftParen | rightParen | leftBrace | rightBrace
  | comma | dot | semicolon | equal
  | identifier | stringT | number
  | trueT | falseT | nilT | thisT
  | varT | funT | classT | ifT | elseT | printT | returnT | forT | whileT
  deriving DecidableEq, Repr

/-- Tokens carry their kind, lexeme and line (src/scanner.rs `Token`). -/
structure Token where
  typ : TokenType
  lexeme : String
  line : Nat
  deriving DecidableEq, Repr

/-- Literal payloads. The source stores a full `Object` inside
`ExprKind::Literal`, but the parser (src/syntax.rs `primary` and
`return_statement`) only ever constructs String, Number, Boolean and Null
literals, so the embedding restricts literal payloads to those four tags. -/
inductive Lit where
  | str (s : String)
  | num (n : Rat)
  | boolean (b : Bool)
  | null
  deriving DecidableEq, Repr

mutual

/-- Expression kinds (src/syntax.rs `ExprKind`). The snapshot under src/
omits the `Super` variant from syntax.rs, but src/interpreter.rs and
src/resolver.rs both match on `ExprKind::Super { token, method }`; the
variant is included as those consumers use it. -/
inductive ExprKind where
  | assign (name : Ident) (expr : Expr)
  | binary (left : Expr) (op : Token) (right : Expr)
  | grouping (expr : Expr)
  | literal (value : Lit)
  | logical (left : Expr) (op : Token) (right : Expr)
  | unary (op : Token) (right : Expr)
  | call (callee : Expr) (parens : Token) (args : List Expr)
  | get (name : Ident) (object : Expr)
  | set (object : Expr) (name : Ident) (value : Expr)
  | this (token : Ident)
  | var (name : Ident)
  | superE (token : Ident) (method : Ident)

/-- An expression: a parse-time unique id plus a kind (src/syntax.rs `Expr`). -/
inductive Expr where
  | mk (id : Nat) (kind : ExprKind)

/-- Function declarations (src/syntax.rs `FunctionStmt`). -/
inductive FunctionStmt where
  | mk (identifier : Ident) (parameters : List Token) (body : List Declaration)

/-- Class declarations (src/syntax.rs `ClassDecl`). -/
inductive ClassDeclT where
  | mk (name : Ident) (methods : List FunctionStmt) (superclass : Option Expr)

/-- Statements (src/syntax.rs `Stmt`). -/
inductive Stmt where
  | expr (e : Expr)
  | functionDecl (f : FunctionStmt)
  | classDecl (c : ClassDeclT)
  | ifS (condition : Expr) (thenBranch : Stmt) (elseBranch : Option Stmt)
  | print (e : Expr)
  | ret (value : Expr)
  | whileS (condition : Expr) (body : Stmt)
  | block (decls : List Declaration)

/-- Declarations (src/syntax.rs `Declaration`). -/
inductive Declaration where
  | varDecl (identifier : Ident) (expression : Expr)
  | statement (s : Stmt)

end

/-- The id component of an expression. -/
def Expr.id : Expr → Nat
  | .mk i _ => i

/-- The kind component of an expression. -/
def Expr.kind : Expr → ExprKind
  | .mk _ k => k

/-- Name of a declared function. -/
def FunctionStmt.identifier : FunctionStmt → Ident
  | .mk i _ _ => i

/-- Parameter tokens of a declared function. -/
def FunctionStmt.parameters : FunctionStmt → List Token
  | .mk _ p _ => p

/-- Body of a declared function. -/
def FunctionStmt.body : FunctionStmt → List Declaration
  | .mk _ _ b => b

/-- A whole program (src/syntax.rs `Program::Declarations`). -/
structure Program where
  decls : List Declaration

end Lox

namespace Lox

/-- Association-list counterpart of the HashMap lookup used throughout. -/
def alistGet? {α : Type} (m : List (Ident × α)) (k : Ident) : Option α :=
  match m with
  | [] => none
  | (k1, v) :: rest => if k1 = k then some v else alistGet? rest k

/-- Association-list counterpart of HashMap insert: replaces an existing
binding of the key or appends a new one. -/
def alistInsert {α : Type} (m : List (Ident × α)) (k : Ident) (v : α) :
    List (Ident × α) :=
  match m with
  | [] => [(k, v)]
  | (k1, v1) :: rest =>
    if k1 = k then (k, v) :: rest else (k1, v1) :: alistInsert rest k v

/-- A user function value (src/callable.rs `Function`): the declaration, a
reference (heap index) to the captured closure environment, and the
initializer flag. -/
structure Fn where
  decl : FunctionStmt
  closure : Nat
  isInitializer : Bool

/-- A class value (src/class.rs `Class`): name, own-methods table and an
optional shared superclass. The methods table stores `Fn` directly, as the
Rust table stores `Rc<Function>`. -/
inductive ClassVal where
  | mk (name : Ident) (methods : List (Ident × Fn)) (superclass : Option ClassVal)

/-- Name of a class. -/
def ClassVal.name : ClassVal → Ident
  | .mk n _ _ => n

/-- Own-methods table of a class. -/
def ClassVal.methods : ClassVal → List (Ident × Fn)
  | .mk _ m _ => m

/-- Superclass of a class, if any. -/
def ClassVal.superclass : ClassVal → Option ClassVal
  | .mk _ _ s => s

/-- An instance value (src/class.rs `ClassInstance`): its class and a heap
index to its shared mutable field table (`Rc<RefCell<HashMap>>` in the
source); cloning the Rust value clones the Rc, i.e. copies the index. -/
structure InstanceVal where
  cls : ClassVal
  fields : Nat

/-- Runtime values (src/types.rs `Object`). `Callable` in the source is
`Rc<dyn Callable>` covering user functions and the one native builtin;
only user functions are modelled (see the header note on `clock`). -/
inductive Obj where
  | string (s : String)
  | number (n : Rat)
  | boolean (b : Bool)
  | callable (f : Fn)
  | classObj (c : ClassVal)
  | classInstance (i : InstanceVal)
  | null

/-- Conversion of a literal payload to a runtime value (the clone in
src/interpreter.rs `eval_literal`). -/
def Lit.toObj : Lit → Obj
  | .str s => .string s
  | .num n => .number n
  | .boolean b => .boolean b
  | .null => .null

/-- One environment record (src/environment.rs `Environment`): an optional
parent reference and a values table. In the source the table lives in its
own `Rc<RefCell<...>>` but is never shared between two environments, so it
is stored inline here. -/
structure EnvRec where
  parent : Option Nat
  values : List (Ident × Obj)

/-- The interpreter state: the heap of environments (indices play the role
of `EnvRef`), the heap of instance field tables, the interpreter fields of
src/interpreter.rs `Interpreter` (`globals`, `environment`, `locals`). -/
structure State where
  envs : List EnvRec
  fieldTables : List (List (Ident × Obj))
  globals : Nat
  environment : Nat
  locals : List (Nat × Nat)

/-- Lookup in the expression-id keyed locals table. -/
def localsGet? (locals : List (Nat × Nat)) (id : Nat) : Option Nat :=
  match locals with
  | [] => none
  | (k, v) :: rest => if k = id then some v else localsGet? rest id

/-- Insert into the locals table (src/interpreter.rs `Interpreter::resolve`). -/
def localsInsert (locals : List (Nat × Nat)) (id : Nat) (d : Nat) :
    List (Nat × Nat) :=
  match locals with
  | [] => [(id, d)]
  | (k, v) :: rest =>
    if k = id then (id, d) :: rest else (k, v) :: localsInsert rest id d

/-- Errors: `fatal` models a Rust panic (every runtime fault in the source
is a panic), `noFuel` is exhaustion of the fuel of the embedding and is
distinct from any behaviour of the program. -/
inductive Err where
  | fatal (msg : String)
  | noFuel

/-- Result monad for all fallible operations. -/
abbrev Res (α : Type) := Except Err α

/-- Allocate a fresh environment (src/environment.rs `Environment::new_ref`):
returns the new reference (index) and the grown state. -/
def newEnvRef (s : State) (parent : Option Nat) : Nat × State :=
  (s.envs.length, { s with envs := s.envs ++ [⟨parent, []⟩] })

/-- Read an environment record off the heap; a dangling index is a fault of
the model, unreachable from states the embedding constructs. -/
def getEnv (s : State) (i : Nat) : Res EnvRec :=
  match s.envs.get? i with
  | some e => pure e
  | none => throw (.fatal "model: dangling environment reference")

/-- Replace the values table of environment `i`. -/
def setEnvValues (s : State) (i : Nat) (vals : List (Ident × Obj)) : State :=
  { s with
    envs := s.envs.set i ⟨((s.envs.get? i).map EnvRec.parent).join, vals⟩ }

/-- Environment::define (src/environment.rs): insert into the receiver
scope, overwriting any previous binding. -/
def envDefine (s : State) (i : Nat) (name : Ident) (v : Obj) : Res State := do
  let e ← getEnv s i
  pure (setEnvValues s i (alistInsert e.values name v))

/-- Environment::get (src/environment.rs): chain-walking lookup, `none`
when no scope in the chain binds the name. -/
def envGet (fuel : Nat) (s : State) (i : Nat) (name : Ident) :
    Res (Option Obj) :=
  match fuel with
  | 0 => throw .noFuel
  | fuel + 1 => do
    let e ← getEnv s i
    match alistGet? e.values name with
    | some v => pure (some v)
    | none =>
      match e.parent with
      | some p => envGet fuel s p name
      | none => pure none

/-- Environment::ancestor (src/environment.rs): the scope exactly
`distance` parent hops out; the source unwraps a missing parent (panic). -/
def envAncestor (fuel : Nat) (s : State) (i : Nat) (distance : Nat) :
    Res Nat :=
  match fuel with
  | 0 => throw .noFuel
  | fuel + 1 => do
    if distance = 0 then
      pure i
    else
      let e ← getEnv s i
      match e.parent with
      | some p => envAncestor fuel s p (distance - 1)
      | none => throw (.fatal "ancestor: no parent at requested distance")

/-- Environment::get_at (src/environment.rs): read at an exact distance; a
missing entry there is a panic in the source. -/
def envGetAt (fuel : Nat) (s : State) (i : Nat) (distance : Nat)
    (name : Ident) : Res Obj := do
  let a ← envAncestor fuel s i distance
  let e ← getEnv s a
  match alistGet? e.values name with
  | some v => pure v
  | none => throw (.fatal "get_at: name not present at resolved distance")

/-- Environment::assign_at (src/environment.rs): insert into the scope at
an exact distance. -/
def envAssignAt (fuel : Nat) (s : State) (i : Nat) (distance : Nat)
    (name : Ident) (v : Obj) : Res State := do
  let a ← envAncestor fuel s i distance
  let e ← getEnv s a
  pure (setEnvValues s a (alistInsert e.values name v))

/-- Environment::mutate (src/environment.rs): replace the binding in the
nearest chain scope that has one, returning the old value, or `none`
leaving the state unchanged when no reachable scope binds the name. -/
def envMutate (fuel : Nat) (s : State) (i : Nat) (name : Ident) (v : Obj) :
    Res (Option Obj × State) :=
  match fuel with
  | 0 => throw .noFuel
  | fuel + 1 => do
    let e ← getEnv s i
    match alistGet? e.values name with
    | some old => pure (some old, setEnvValues s i (alistInsert e.values name v))
    | none =>
      match e.parent with
      | some p => envMutate fuel s p name v
      | none => pure (none, s)

end Lox

namespace Lox

/-- Class::find_method (src/class.rs): the own-methods table first, then
the superclass chain. The source wraps the found `Rc<Function>` in
`Object::Callable`; this primitive returns the bare `Fn`, and
`findMethod` below adds the wrapper. -/
def ClassVal.findMethodFn : ClassVal → Ident → Option Fn
  | .mk _ methods superclass, name =>
    match alistGet? methods name with
    | some f => some f
    | none =>
      match superclass with
      | some s => s.findMethodFn name
      | none => none

/-- Class::find_method exactly as in the source: an `Object`, always of
the `Callable` tag. -/
def ClassVal.findMethod (c : ClassVal) (name : Ident) : Option Obj :=
  (c.findMethodFn name).map Obj.callable

/-- Function arity (src/callable.rs): the number of declared parameters. -/
def Fn.arity (f : Fn) : Nat :=
  f.decl.parameters.length

/-- Class arity (src/class.rs `impl Callable for Class`): the arity of the
`init` method found anywhere in the chain, or 0 when there is none. The
source panic branch for a non-callable `init` is unreachable because
`find_method` only ever returns `Object::Callable` values. -/
def ClassVal.arity (c : ClassVal) : Nat :=
  match c.findMethodFn "init" with
  | some t => t.arity
  | none => 0

/-- Function::bind (src/callable.rs): build a fresh environment whose
parent is the closure of the method, define `this` to the instance in it
(the instance is cloned, which copies the shared field-table reference),
and return a new Function with the same declaration and initializer flag
over that environment. -/
def Fn.bind (f : Fn) (instance_ : InstanceVal) (s : State) : Obj × State :=
  let (env, s1) := newEnvRef s (some f.closure)
  let s2 := { s1 with
    envs := s1.envs.set env ⟨some f.closure, [("this", Obj.classInstance instance_)]⟩ }
  (Obj.callable ⟨f.decl, env, f.isInitializer⟩, s2)

/-- Read the field table of an instance off the heap; instances built by
the embedding always carry an in-range index, the default is unreachable. -/
def fieldsOf (s : State) (i : InstanceVal) : List (Ident × Obj) :=
  s.fieldTables.getD i.fields []

/-- ClassInstance::get (src/class.rs): the field table first; otherwise a
method found through the chain, bound to the receiving instance; otherwise
a fatal undefined-property panic. -/
def instanceGet (s : State) (i : InstanceVal) (name : Ident) :
    Res (Obj × State) :=
  match alistGet? (fieldsOf s i) name with
  | some field => pure (field, s)
  | none =>
    match i.cls.findMethod name with
    | some (.callable m) => pure (m.bind i s)
    | _ => throw (.fatal ("Undefined property " ++ name))

/-- ClassInstance::set (src/class.rs): unconditionally insert into the
shared field table. -/
def instanceSet (s : State) (i : InstanceVal) (name : Ident) (v : Obj) :
    State :=
  { s with
    fieldTables := s.fieldTables.set i.fields (alistInsert (fieldsOf s i) name v) }

/-- ClassInstance::new (src/class.rs): a fresh empty field table on the
heap; returns the instance and the grown state. -/
def newInstance (s : State) (c : ClassVal) : InstanceVal × State :=
  (⟨c, s.fieldTables.length⟩, { s with fieldTables := s.fieldTables ++ [[]] })

/-- Object::is_truthy (src/types.rs): defined for booleans only, a panic
on every other tag. -/
def Obj.isTruthy : Obj → Res Bool
  | .boolean value => pure value
  | _ => throw (.fatal "invalid non-boolean value evaluated to truthy")

/-- is_equal (src/interpreter.rs, free function used by eval_binary):
same-tag comparison for strings, numbers, booleans and null; every other
pairing, including callables, classes and instances, falls through to
false and never faults. -/
def isEqual : Obj → Obj → Bool
  | .string left, .string right => left == right
  | .number left, .number right => left == right
  | .boolean left, .boolean right => left == right
  | .null, .null => true
  | _, _ => false

end Lox

namespace Lox

/-- The kind of the innermost enclosing function (src/resolver.rs `FunctionType`). -/
inductive FunctionType where
  | none | function | initializer | method
  deriving DecidableEq, Repr

/-- The kind of the innermost enclosing class (src/resolver.rs `ClassType`). -/
inductive ClassType where
  | none | cls | subclass
  deriving DecidableEq, Repr

/-- Resolver state (src/resolver.rs `Resolver`): the compile-time scope
stack (innermost scope at the head here, at the end of the Vec in the
source), the two context enums, and the locals table being built (the
source writes it into the held interpreter via `Interpreter::resolve`). -/
structure RState where
  scopes : List (List (Ident × Bool))
  currentFunction : FunctionType
  currentClass : ClassType
  locals : List (Nat × Nat)

/-- Initial resolver state (src/resolver.rs `Resolver::new`). -/
def RState.init : RState :=
  ⟨[], .none, .none, []⟩

/-- Resolver::declare (src/resolver.rs): no-op with no open scope;
otherwise a duplicate name in the innermost scope is a static error, else
the name is marked not-yet-defined there. -/
def rDeclare (st : RState) (name : Ident) : Res RState :=
  match st.scopes with
  | [] => pure st
  | scope :: rest =>
    if (alistGet? scope name).isSome then
      throw (.fatal "Already a variable with this name in this scope.")
    else
      pure { st with scopes := alistInsert scope name false :: rest }

/-- Resolver::define (src/resolver.rs): mark the name ready in the
innermost scope; no-op with no open scope. -/
def rDefine (st : RState) (name : Ident) : RState :=
  match st.scopes with
  | [] => st
  | scope :: rest => { st with scopes := alistInsert scope name true :: rest }

/-- Resolver::begin_scope. -/
def beginScope (st : RState) : RState :=
  { st with scopes := [] :: st.scopes }

/-- Resolver::end_scope; popping an empty stack is a panic in the source. -/
def endScope (st : RState) : Res RState :=
  match st.scopes with
  | [] => throw (.fatal "stack is empty!")
  | _ :: rest => pure { st with scopes := rest }

/-- The innermost-outward scan of Resolver::resolve_local: the depth of
the first scope containing the name, counting from the innermost. -/
def scopeDepthOf (scopes : List (List (Ident × Bool))) (name : Ident)
    (d : Nat) : Option Nat :=
  match scopes with
  | [] => none
  | scope :: rest =>
    if (alistGet? scope name).isSome then some d
    else scopeDepthOf rest name (d + 1)

/-- Resolver::resolve_local (src/resolver.rs): record the distance of the
given expression when some scope binds the name, and record nothing
otherwise (the reference is then a dynamic global lookup). -/
def resolveLocal (st : RState) (e : Expr) (name : Ident) : RState :=
  match scopeDepthOf st.scopes name 0 with
  | some depth => { st with locals := localsInsert st.locals e.id depth }
  | none => st

/-- The parameter loop of Resolver::resolve_function. -/
def resolveParams : List Token → RState → Res RState
  | [], st => pure st
  | param :: rest, st => do
    let st ← rDeclare st param.lexeme
    let st := rDefine st param.lexeme
    resolveParams rest st

/-- The resolver functions of src/resolver.rs, bundled per fuel level;
the fields mirror the mutually recursive functions one to one (the two
inner loops over class methods and call arguments get their own fields).
Bundling by fuel level instead of a Lean `mutual` block keeps every
function executable by plain kernel reduction. -/
structure RFns where
  resolveList : List Declaration → RState → Res RState
  resolveStmt : Stmt → RState → Res RState
  resolveMethods : List FunctionStmt → RState → Res RState
  resolveExpr : Expr → RState → Res RState
  resolveArgs : List Expr → RState → Res RState
  resolveFunction : FunctionStmt → FunctionType → RState → Res RState

/-- The out-of-fuel bundle. -/
def RFns.stuck : RFns where
  resolveList := fun _ _ => throw .noFuel
  resolveStmt := fun _ _ => throw .noFuel
  resolveMethods := fun _ _ => throw .noFuel
  resolveExpr := fun _ _ => throw .noFuel
  resolveArgs := fun _ _ => throw .noFuel
  resolveFunction := fun _ _ _ => throw .noFuel

/-- One fuel level of the resolver; every recursive call goes through the
previous level `prev`. -/
def RFns.step (prev : RFns) : RFns where
  resolveList := fun decls st =>
    match decls with
    | [] => pure st
    | d :: rest => do
      let st ←
        match d with
        | .varDecl identifier expression => do
          let st ← rDeclare st identifier
          let st ← prev.resolveExpr expression st
          pure (rDefine st identifier)
        | .statement stmt => prev.resolveStmt stmt st
      prev.resolveList rest st
  resolveStmt := fun stmt st =>
    match stmt with
    | .expr e => prev.resolveExpr e st
    | .functionDecl fs => do
      let st ← rDeclare st fs.identifier
      let st := rDefine st fs.identifier
      prev.resolveFunction fs .function st
    | .ifS condition thenBranch elseBranch => do
      let st ← prev.resolveExpr condition st
      let st ← prev.resolveStmt thenBranch st
      match elseBranch with
      | some e => prev.resolveStmt e st
      | none => pure st
    | .print e => prev.resolveExpr e st
    | .ret value => do
      if st.currentFunction = .none then
        throw (.fatal "cant return from a top-level function")
      else if st.currentFunction = .initializer then
        throw (.fatal "cant return from an initializer")
      else
        prev.resolveExpr value st
    | .whileS condition body => do
      let st ← prev.resolveExpr condition st
      prev.resolveStmt body st
    | .block declarations => do
      let st := beginScope st
      let st ← prev.resolveList declarations st
      endScope st
    | .classDecl (.mk name methods superclass) => do
      let enclosingClass := st.currentClass
      let st := { st with currentClass := .cls }
      let st ← rDeclare st name
      let st := rDefine st name
      let st ←
        match superclass with
        | some sup => do
          match sup.kind with
          | .var supName =>
            if supName = name then
              throw (.fatal "a class cant inherit from itself")
            else
              pure ()
          | _ => throw (.fatal "bug: superclass is not a var??")
          let st := { st with currentClass := .subclass }
          prev.resolveExpr sup st
        | none => pure st
      let st :=
        if superclass.isSome then
          let st := beginScope st
          match st.scopes with
          | scope :: rest =>
            { st with scopes := alistInsert scope "super" true :: rest }
          | [] => st
        else st
      let st := beginScope st
      let st :=
        match st.scopes with
        | scope :: rest => { st with scopes := alistInsert scope "this" true :: rest }
        | [] => st
      let st ← prev.resolveMethods methods st
      let st ← endScope st
      let st ← if superclass.isSome then endScope st else pure st
      pure { st with currentClass := enclosingClass }
  resolveMethods := fun ms st =>
    match ms with
    | [] => pure st
    | m :: rest => do
      let declKind : FunctionType :=
        if m.identifier = "init" then .initializer else .method
      let st ← prev.resolveFunction m declKind st
      prev.resolveMethods rest st
  resolveExpr := fun e st =>
    match e.kind with
    | .assign name child => do
      let st ← prev.resolveExpr child st
      pure (resolveLocal st e name)
    | .binary left _ right => do
      let st ← prev.resolveExpr left st
      prev.resolveExpr right st
    | .grouping inner => prev.resolveExpr inner st
    | .literal _ => pure st
    | .logical left _ right => do
      let st ← prev.resolveExpr left st
      prev.resolveExpr right st
    | .unary _ right => prev.resolveExpr right st
    | .call callee _ args => do
      let st ← prev.resolveExpr callee st
      prev.resolveArgs args st
    | .var name => do
      if (st.scopes.head?.map
            (fun s => (alistGet? s name).getD true)) = some false then
        throw (.fatal "cant read local var in its own initializer")
      else
        pure (resolveLocal st e name)
    | .get _ object => prev.resolveExpr object st
    | .set object _ value => do
      let st ← prev.resolveExpr value st
      prev.resolveExpr object st
    | .this token => do
      if st.currentClass = .none then
        throw (.fatal "cant use the this keyword outside of a class")
      else
        pure (resolveLocal st e token)
    | .superE token _ => do
      if st.currentClass = .none then
        throw (.fatal "cant use super outside of class")
      else if st.currentClass ≠ .subclass then
        throw (.fatal "cant use super in a class with no superclass")
      else
        pure (resolveLocal st e token)
  resolveArgs := fun args st =>
    match args with
    | [] => pure st
    | arg :: rest => do
      let st ← prev.resolveExpr arg st
      prev.resolveArgs rest st
  resolveFunction := fun fs kind st => do
    let enclosingFunction := st.currentFunction
    let st := { st with currentFunction := kind }
    let st := beginScope st
    let st ← resolveParams fs.parameters st
    let st ← prev.resolveList fs.body st
    let st ← endScope st
    pure { st with currentFunction := enclosingFunction }

/-- The resolver bundle at a given fuel level. -/
def rAt : Nat → RFns
  | 0 => RFns.stuck
  | fuel + 1 => RFns.step (rAt fuel)

/-- Resolver::resolve over a declaration list (src/resolver.rs). -/
def resolveList (fuel : Nat) : List Declaration → RState → Res RState :=
  (rAt fuel).resolveList

/-- Resolver::resolve_stmt (src/resolver.rs). -/
def resolveStmt (fuel : Nat) : Stmt → RState → Res RState :=
  (rAt fuel).resolveStmt

/-- The loop over class methods in Resolver::resolve_stmt: each method is
resolved as an initializer when its name is `init`, as a method otherwise. -/
def resolveMethods (fuel : Nat) : List FunctionStmt → RState → Res RState :=
  (rAt fuel).resolveMethods

/-- Resolver::resolve_expr (src/resolver.rs). -/
def resolveExpr (fuel : Nat) : Expr → RState → Res RState :=
  (rAt fuel).resolveExpr

/-- The argument loop of the Call arm of Resolver::resolve_expr. -/
def resolveArgs (fuel : Nat) : List Expr → RState → Res RState :=
  (rAt fuel).resolveArgs

/-- Resolver::resolve_function (src/resolver.rs): save and set the current
function kind, open the parameter scope, declare and define each
parameter, resolve the body, close the scope, restore the kind. -/
def resolveFunction (fuel : Nat) : FunctionStmt → FunctionType → RState → Res RState :=
  (rAt fuel).resolveFunction

/-- Resolver::run (src/resolver.rs): resolve the program and hand back the
locals table for the interpreter. -/
def resolveProgram (fuel : Nat) (p : Program) : Res (List (Nat × Nat)) := do
  let st ← resolveList fuel p.decls RState.init
  pure st.locals

end Lox

namespace Lox

/-- The statement-level control channel (src/interpreter.rs
`type Flow<T> = Result<T, T>`): `ok` is normal completion, `err` is the
return signal carrying the returned value. It is distinct from `Err`,
which models panics. -/
inductive Flow where
  | ok (v : Obj)
  | err (v : Obj)

/-- The two callable shapes dispatched by eval_call (src/interpreter.rs):
a user function or a class used as constructor (the native builtin is not
modelled, see the header). -/
inductive CallableRef where
  | fn (f : Fn)
  | cls (c : ClassVal)

/-- Dynamic arity dispatch over a callable. -/
def CallableRef.arity : CallableRef → Nat
  | .fn f => f.arity
  | .cls c => c.arity

/-- Interpreter::lookup_var (src/interpreter.rs): exact-distance lookup
when the locals table has an entry for this expression id, otherwise a
by-name lookup in the globals chain, fatal when that misses too. -/
def lookupVar (s : State) (name : Ident) (e : Expr) : Res Obj :=
  match localsGet? s.locals e.id with
  | some distance => envGetAt (s.envs.length + 1) s s.environment distance name
  | none => do
    match ← envGet (s.envs.length + 1) s s.globals name with
    | some v => pure v
    | none =>
      throw (.fatal "could not find variable in environment nor global scope")

/-- The operand match of Interpreter::eval_binary (src/interpreter.rs),
applied after both operands are evaluated; arm order follows the source,
so the equality arms catch every operand pairing for those two operators. -/
def binaryOp (left : Obj) (t : TokenType) (right : Obj) : Res Obj :=
  match left, t, right with
  | .number l, .minus, .number r => pure (.number (l - r))
  | .number l, .plus, .number r => pure (.number (l + r))
  | .number l, .slash, .number r => pure (.number (l / r))
  | .number l, .star, .number r => pure (.number (l * r))
  | .number l, .greater, .number r => pure (.boolean (decide (l > r)))
  | .number l, .greaterEqual, .number r => pure (.boolean (decide (l ≥ r)))
  | .number l, .less, .number r => pure (.boolean (decide (l < r)))
  | .number l, .lessEqual, .number r => pure (.boolean (decide (l ≤ r)))
  | l, .equalEqual, r => pure (.boolean (isEqual l r))
  | l, .bangEqual, r => pure (.boolean (!isEqual l r))
  | .string l, .plus, .string r => pure (.string (l ++ r))
  | _, _, _ =>
    throw (.fatal "invalid operator for these operands. This isnt javascript")

/-- The parameter-binding loop of Function::call (src/callable.rs): define
each parameter to the positional argument; the source indexes `args[i]`,
so a missing argument is a panic (unreachable after the arity check). -/
def defineParams (params : List Token) (args : List Obj) (env : Nat)
    (s : State) : Res State :=
  match params, args with
  | [], _ => pure s
  | _ :: _, [] => throw (.fatal "argument index out of bounds")
  | p :: ps, a :: rest => do
    let s1 ← envDefine s env p.lexeme a
    defineParams ps rest env s1

/-- The method-table construction loop of the ClassDecl arm of
Interpreter::execute_stmt (src/interpreter.rs): each method closes over
the current environment and is flagged as initializer iff named `init`;
HashMap insertion lets a later duplicate name overwrite an earlier one. -/
def buildMethods (ms : List FunctionStmt) (env : Nat) : List (Ident × Fn) :=
  ms.foldl
    (fun acc m => alistInsert acc m.identifier ⟨m, env, m.identifier = "init"⟩)
    []

/-- The interpreter functions of src/interpreter.rs, src/callable.rs and
src/class.rs, bundled per fuel level; the fields mirror the mutually
recursive functions one to one (`evalArgs` and `executeSeq` are the two
inline loops, `callableCall` is the `Rc<dyn Callable>` dynamic dispatch).
Bundling by fuel level instead of a Lean `mutual` block keeps every
function executable by plain kernel reduction. -/
structure IFns where
  evalE : Expr → State → Res (Obj × State)
  evalArgs : List Expr → State → Res (List Obj × State)
  evalCall : Expr → List Expr → State → Res (Obj × State)
  callableCall : CallableRef → List Obj → State → Res (Obj × State)
  callFunction : Fn → List Obj → State → Res (Obj × State)
  callClass : ClassVal → List Obj → State → Res (Obj × State)
  evalAssign : Ident → Expr → State → Res (Obj × State)
  evalLogical : Expr → Token → Expr → State → Res (Obj × State)
  evalUnary : Token → Expr → State → Res (Obj × State)
  evalBinary : Expr → Token → Expr → State → Res (Obj × State)
  evalGet : Ident → Expr → State → Res (Obj × State)
  evalSet : Expr → Ident → Expr → State → Res (Obj × State)
  executeStmt : Stmt → State → Res (Flow × State)
  executeDecl : Declaration → State → Res (Flow × State)
  executeSeq : List Declaration → Obj → State → Res (Flow × State)
  executeBlock : List Declaration → Nat → State → Res (Flow × State)

/-- The out-of-fuel bundle. -/
def IFns.stuck : IFns where
  evalE := fun _ _ => throw .noFuel
  evalArgs := fun _ _ => throw .noFuel
  evalCall := fun _ _ _ => throw .noFuel
  callableCall := fun _ _ _ => throw .noFuel
  callFunction := fun _ _ _ => throw .noFuel
  callClass := fun _ _ _ => throw .noFuel
  evalAssign := fun _ _ _ => throw .noFuel
  evalLogical := fun _ _ _ _ => throw .noFuel
  evalUnary := fun _ _ _ => throw .noFuel
  evalBinary := fun _ _ _ _ => throw .noFuel
  evalGet := fun _ _ _ => throw .noFuel
  evalSet := fun _ _ _ _ => throw .noFuel
  executeStmt := fun _ _ => throw .noFuel
  executeDecl := fun _ _ => throw .noFuel
  executeSeq := fun _ _ _ => throw .noFuel
  executeBlock := fun _ _ _ => throw .noFuel

/-- One fuel level of the interpreter; every recursive call goes through
the previous level `prev`. Each field keeps the structure of its source
function; the per-field comments of the wrapper definitions below name
the sources. -/
def IFns.step (prev : IFns) : IFns where
  evalE := fun e s =>
    match e.kind with
    | .binary left op right => prev.evalBinary left op right s
    | .grouping inner => prev.evalE inner s
    | .literal value => pure (value.toObj, s)
    | .unary op right => prev.evalUnary op right s
    | .var name => do
      let v ← lookupVar s name e
      pure (v, s)
    | .assign name child => prev.evalAssign name child s
    | .logical left op right => prev.evalLogical left op right s
    | .call callee _ args => prev.evalCall callee args s
    | .get name object => prev.evalGet name object s
    | .set object name value => prev.evalSet object name value s
    | .this token => do
      let v ← lookupVar s token e
      pure (v, s)
    | .superE _ method => do
      let distance ←
        match localsGet? s.locals e.id with
        | some d => pure d
        | none => throw (.fatal "bug: super expression missing from locals")
      let superV ← envGetAt (s.envs.length + 1) s s.environment distance "super"
      let superclass ←
        match superV with
        | .classObj c => pure c
        | _ => throw (.fatal "bug: environment.get super did not return a class")
      let thisV ← envGetAt (s.envs.length + 1) s s.environment (distance - 1) "this"
      let object ←
        match thisV with
        | .classInstance i => pure i
        | _ =>
          throw (.fatal "bug: environment.get this did not return a class instance")
      match superclass.findMethod method with
      | some (.callable m) => pure (m.bind object s)
      | _ => throw (.fatal "method not found")
  evalArgs := fun args s =>
    match args with
    | [] => pure ([], s)
    | a :: rest => do
      let (v, s1) ← prev.evalE a s
      let (vs, s2) ← prev.evalArgs rest s1
      pure (v :: vs, s2)
  evalCall := fun calleeE args s => do
    let (calleeV, s1) ← prev.evalE calleeE s
    let (argVals, s2) ← prev.evalArgs args s1
    let callable ←
      match calleeV with
      | .callable c => pure (CallableRef.fn c)
      | .classObj c => pure (CallableRef.cls c)
      | _ => throw (.fatal "value is not callable")
    if callable.arity ≠ argVals.length then
      throw (.fatal "called fn with wrong number of arguments")
    else
      prev.callableCall callable argVals s2
  callableCall := fun c args s =>
    match c with
    | .fn f => prev.callFunction f args s
    | .cls cl => prev.callClass cl args s
  callFunction := fun f args s => do
    let (env, s1) := newEnvRef s (some f.closure)
    let s2 ← defineParams f.decl.parameters args env s1
    let (flow, s3) ← prev.executeBlock f.decl.body env s2
    match flow with
    | .err x => pure (x, s3)
    | .ok retValue =>
      if f.isInitializer then do
        let v ← envGetAt (s3.envs.length + 1) s3 f.closure 0 "this"
        pure (v, s3)
      else
        pure (retValue, s3)
  callClass := fun c args s => do
    let (instance_, s1) := newInstance s c
    match c.findMethod "init" with
    | some (.callable initFn) =>
      let (bound, s2) := initFn.bind instance_ s1
      match bound with
      | .callable b => do
        let (_, s3) ← prev.callFunction b args s2
        pure (.classInstance instance_, s3)
      | _ =>
        throw (.fatal "initializer bind did not return a callable, this is a bug")
    | some _ => throw (.fatal "init method must be a callable")
    | none => pure (.classInstance instance_, s1)
  evalAssign := fun name child s => do
    let (value, s1) ← prev.evalE child s
    match localsGet? s1.locals child.id with
    | some distance => do
      let s2 ← envAssignAt (s1.envs.length + 1) s1 s1.environment distance name value
      pure (value, s2)
    | none => do
      let (_, s2) ← envMutate (s1.envs.length + 1) s1 s1.environment name value
      pure (value, s2)
  evalLogical := fun leftE op rightE s => do
    let (left, s1) ← prev.evalE leftE s
    if op.typ = .orT then
      if ← left.isTruthy then pure (left, s1)
      else prev.evalE rightE s1
    else
      if !(← left.isTruthy) then pure (left, s1)
      else prev.evalE rightE s1
  evalUnary := fun op right s =>
    match op.typ with
    | .minus => do
      let (sub, s1) ← prev.evalE right s
      match sub with
      | .number n => pure (.number (-n), s1)
      | _ => throw (.fatal "invalid ")
    | _ => throw (.fatal "unexpected token. Expecting minus")
  evalBinary := fun leftE op rightE s => do
    let (left, s1) ← prev.evalE leftE s
    let (right, s2) ← prev.evalE rightE s1
    let v ← binaryOp left op.typ right
    pure (v, s2)
  evalGet := fun name object s => do
    let (obj, s1) ← prev.evalE object s
    match obj with
    | .classInstance ins => instanceGet s1 ins name
    | _ => throw (.fatal "only instances have properties")
  evalSet := fun object name valueE s => do
    let (obj, s1) ← prev.evalE object s
    match obj with
    | .classInstance ins => do
      let (value, s2) ← prev.evalE valueE s1
      pure (value, instanceSet s2 ins name value)
    | _ => throw (.fatal "only instances have fields")
  executeStmt := fun stmt s =>
    match stmt with
    | .expr e => do
      let (v, s1) ← prev.evalE e s
      pure (.ok v, s1)
    | .ifS condition thenBranch elseBranch => do
      let (cv, s1) ← prev.evalE condition s
      let conditionValue ←
        match cv with
        | .boolean value => pure value
        | _ => throw (.fatal "if condition can only be boolean")
      if conditionValue then
        prev.executeStmt thenBranch s1
      else
        match elseBranch with
        | some e => prev.executeStmt e s1
        | none => pure (.ok .null, s1)
    | .print e => do
      let (_, s1) ← prev.evalE e s
      pure (.ok .null, s1)
    | .whileS condition body => do
      let (cv, s1) ← prev.evalE condition s
      let conditionValue ←
        match cv with
        | .boolean value => pure value
        | _ => throw (.fatal "while condition can only be boolean")
      if conditionValue then do
        let (flow, s2) ← prev.executeStmt body s1
        match flow with
        | .err v => pure (.err v, s2)
        | .ok _ => prev.executeStmt (.whileS condition body) s2
      else
        pure (.ok .null, s1)
    | .block decls =>
      let (env, s1) := newEnvRef s (some s.environment)
      prev.executeBlock decls env s1
    | .functionDecl fs => do
      let funV := Obj.callable ⟨fs, s.environment, false⟩
      let s1 ← envDefine s s.environment fs.identifier funV
      pure (.ok .null, s1)
    | .ret value => do
      let (v, s1) ← prev.evalE value s
      pure (.err v, s1)
    | .classDecl (.mk name methodDecls superclassExpr) => do
      let (superclassV, s1) ←
        match superclassExpr with
        | some supE => do
          let (sv, sA) ← prev.evalE supE s
          match sv with
          | .classObj sc => pure (some sc, sA)
          | _ => throw (.fatal "superclass is not a class!")
        | none => pure (none, s)
      let s2 ← envDefine s1 s1.environment name .null
      let s3 ←
        match superclassV with
        | some sc =>
          let (env, sA) := newEnvRef s2 (some s2.environment)
          let sB := { sA with environment := env }
          envDefine sB env "super" (.classObj sc)
        | none => pure s2
      let methods := buildMethods methodDecls s3.environment
      let classV := ClassVal.mk name methods superclassV
      let s4 ←
        match superclassV with
        | some _ => do
          let e ← getEnv s3 s3.environment
          match e.parent with
          | some p => pure { s3 with environment := p }
          | none => throw (.fatal "class scope has no parent")
        | none => pure s3
      let (_, s5) ← envMutate (s4.envs.length + 1) s4 s4.environment name
        (.classObj classV)
      pure (.ok .null, s5)
  executeDecl := fun d s =>
    match d with
    | .statement stmt => prev.executeStmt stmt s
    | .varDecl identifier expression => do
      let (v, s1) ← prev.evalE expression s
      let s2 ← envDefine s1 s1.environment identifier v
      pure (.ok .null, s2)
  executeSeq := fun ds last s =>
    match ds with
    | [] => pure (.ok last, s)
    | d :: rest => do
      let (flow, s1) ← prev.executeDecl d s
      match flow with
      | .ok v => prev.executeSeq rest v s1
      | .err v => pure (.err v, s1)
  executeBlock := fun statements env s => do
    let prevEnv := s.environment
    let s1 := { s with environment := env }
    let (flow, s2) ← prev.executeSeq statements Obj.null s1
    pure (flow, { s2 with environment := prevEnv })

/-- The interpreter bundle at a given fuel level. -/
def iAt : Nat → IFns
  | 0 => IFns.stuck
  | fuel + 1 => IFns.step (iAt fuel)

/-- Interpreter::eval (src/interpreter.rs), including the inline `Super`
arm. -/
def evalE (fuel : Nat) : Expr → State → Res (Obj × State) :=
  (iAt fuel).evalE

/-- The argument loop of Interpreter::eval_call: left-to-right evaluation. -/
def evalArgs (fuel : Nat) : List Expr → State → Res (List Obj × State) :=
  (iAt fuel).evalArgs

/-- Interpreter::eval_call (src/interpreter.rs): evaluate callee then the
arguments, require a callable or class, panic on an arity mismatch before
dispatching, then dispatch. -/
def evalCall (fuel : Nat) : Expr → List Expr → State → Res (Obj × State) :=
  (iAt fuel).evalCall

/-- Dynamic dispatch of `Callable::call` over the two callable shapes. -/
def callableCall (fuel : Nat) : CallableRef → List Obj → State → Res (Obj × State) :=
  (iAt fuel).callableCall

/-- Function::call (src/callable.rs): fresh child environment of the
closure, bind parameters, execute the body as a block; a return signal is
unwrapped into the result; an initializer answer is replaced by the bound
`this` read at distance 0 of the closure. -/
def callFunction (fuel : Nat) : Fn → List Obj → State → Res (Obj × State) :=
  (iAt fuel).callFunction

/-- Class::call (src/class.rs): allocate an instance with a fresh empty
field table; when an `init` method exists anywhere in the chain, bind it
to the new instance and call it with the constructor arguments, discarding
its result; return the instance. -/
def callClass (fuel : Nat) : ClassVal → List Obj → State → Res (Obj × State) :=
  (iAt fuel).callClass

/-- Interpreter::eval_assign (src/interpreter.rs lines 345 to 357): the
`expr` parameter there denotes the assigned value subexpression, so the
locals lookup on line 347 reads the table at the id of the value
subexpression, not at the id of the enclosing Assign expression that
Resolver::resolve_expr recorded; the embedding mirrors that verbatim. On a
hit it writes at that distance; otherwise it calls Environment::mutate on
the current environment and ignores the returned Option, so a miss
everywhere is silent. -/
def evalAssign (fuel : Nat) : Ident → Expr → State → Res (Obj × State) :=
  (iAt fuel).evalAssign

/-- Interpreter::eval_logical (src/interpreter.rs): evaluate the left
operand; `or` answers it when truthy, `and` answers it when falsy (the
truthiness test panics on non-booleans); otherwise evaluate and answer the
right operand. -/
def evalLogical (fuel : Nat) : Expr → Token → Expr → State → Res (Obj × State) :=
  (iAt fuel).evalLogical

/-- Interpreter::eval_unary (src/interpreter.rs): only the minus token is
handled, and only on numbers; every other operator token, and a non-number
operand, is a panic. -/
def evalUnary (fuel : Nat) : Token → Expr → State → Res (Obj × State) :=
  (iAt fuel).evalUnary

/-- Interpreter::eval_binary (src/interpreter.rs): evaluate both operands
left to right, then apply the operand match `binaryOp`. -/
def evalBinary (fuel : Nat) : Expr → Token → Expr → State → Res (Obj × State) :=
  (iAt fuel).evalBinary

/-- Interpreter::eval_get (src/interpreter.rs): the object must be an
instance, then ClassInstance::get applies. -/
def evalGet (fuel : Nat) : Ident → Expr → State → Res (Obj × State) :=
  (iAt fuel).evalGet

/-- Interpreter::eval_set (src/interpreter.rs): the object must be an
instance; the value is evaluated after the object and written
unconditionally into the shared field table; the value is the result. -/
def evalSet (fuel : Nat) : Expr → Ident → Expr → State → Res (Obj × State) :=
  (iAt fuel).evalSet

/-- Interpreter::execute_stmt (src/interpreter.rs). -/
def executeStmt (fuel : Nat) : Stmt → State → Res (Flow × State) :=
  (iAt fuel).executeStmt

/-- Interpreter::execute (src/interpreter.rs): a statement executes as a
statement; a Var declaration evaluates its mandatory initializer and
defines the name in the current scope. -/
def executeDecl (fuel : Nat) : Declaration → State → Res (Flow × State) :=
  (iAt fuel).executeDecl

/-- The statement loop of Interpreter::execute_block, carrying the value
of the last completed declaration (started at Null): a return signal stops
the loop at once and is answered unchanged. -/
def executeSeq (fuel : Nat) : List Declaration → Obj → State → Res (Flow × State) :=
  (iAt fuel).executeSeq

/-- Interpreter::execute_block (src/interpreter.rs): remember the previous
environment, switch to the given one, run the declarations, and restore
the previous environment on the normal path and on the return-signal path
alike (the source restores separately in both branches). -/
def executeBlock (fuel : Nat) : List Declaration → Nat → State → Res (Flow × State) :=
  (iAt fuel).executeBlock

/-- Interpreter::interpret (src/interpreter.rs): run the declarations in
order; the flow result of each is discarded (`let _ = ...`), while a panic
aborts the whole run. -/
def interpret : Nat → List Declaration → State → Res State
  | 0, _, _ => throw .noFuel
  | _ + 1, [], s => pure s
  | fuel + 1, d :: ds, s => do
    let (_, s1) ← executeDecl fuel d s
    interpret fuel ds s1

/-- The initial interpreter state (src/interpreter.rs `Interpreter::new`):
one global environment that is also the current environment, with the
given locals table installed by the resolver. The native builtin table is
empty in the model (see the header note on `clock`). -/
def initState (locals : List (Nat × Nat)) : State :=
  ⟨[⟨none, []⟩], [], 0, 0, locals⟩

/-- The whole pipeline of src/main.rs `run_file` after parsing: resolve
the program (aborting on a static error before anything executes), then
interpret it with the resolver locals installed. -/
def runProgram (fuel : Nat) (p : Program) : Res State :=
  match resolveProgram fuel p with
  | .error e => throw e
  | .ok locals => interpret fuel p.decls (initState locals)

end Lox

namespace Lox

/-- Parser state (src/syntax.rs `Parser`): the remaining token stream and
the running expression-id counter. -/
structure PState where
  tokens : List Token
  exprCounter : Nat

/-- Parser::matches (src/syntax.rs): consume the next token when its kind
is in the given set. -/
def pMatches (types : List TokenType) (st : PState) : Option Token × PState :=
  match st.tokens with
  | [] => (none, st)
  | t :: rest =>
    if types.any (fun ty => ty == t.typ) then (some t, { st with tokens := rest })
    else (none, st)

/-- Parser::peek_matches (src/syntax.rs). -/
def pPeekMatches (types : List TokenType) (st : PState) : Bool :=
  match st.tokens.head? with
  | some t => types.any (fun ty => ty == t.typ)
  | none => false

/-- Parser::get_expr_id (src/syntax.rs): return the counter, then bump it. -/
def pGetExprId (st : PState) : Nat × PState :=
  (st.exprCounter, { st with exprCounter := st.exprCounter + 1 })

/-- The expression-grammar functions of src/syntax.rs, bundled per fuel
level like the resolver and interpreter bundles; `xLoop` fields are the
`while` loops inside the corresponding source functions, and the four
instances of the `binary_expr` macro appear expanded. -/
structure PFns where
  expression : PState → Res (Expr × PState)
  assignment : PState → Res (Expr × PState)
  orE : PState → Res (Expr × PState)
  orLoop : Expr → PState → Res (Expr × PState)
  andE : PState → Res (Expr × PState)
  andLoop : Expr → PState → Res (Expr × PState)
  equality : PState → Res (Expr × PState)
  equalityLoop : Expr → PState → Res (Expr × PState)
  comparison : PState → Res (Expr × PState)
  comparisonLoop : Expr → PState → Res (Expr × PState)
  term : PState → Res (Expr × PState)
  termLoop : Expr → PState → Res (Expr × PState)
  factor : PState → Res (Expr × PState)
  factorLoop : Expr → PState → Res (Expr × PState)
  unary : PState → Res (Expr × PState)
  callE : PState → Res (Expr × PState)
  callLoop : Expr → PState → Res (Expr × PState)
  finishCall : Expr → PState → Res (Expr × PState)
  argsLoop : List Expr → PState → Res (List Expr × PState)
  primary : PState → Res (Expr × PState)

/-- The out-of-fuel parser bundle. -/
def PFns.stuck : PFns where
  expression := fun _ => throw .noFuel
  assignment := fun _ => throw .noFuel
  orE := fun _ => throw .noFuel
  orLoop := fun _ _ => throw .noFuel
  andE := fun _ => throw .noFuel
  andLoop := fun _ _ => throw .noFuel
  equality := fun _ => throw .noFuel
  equalityLoop := fun _ _ => throw .noFuel
  comparison := fun _ => throw .noFuel
  comparisonLoop := fun _ _ => throw .noFuel
  term := fun _ => throw .noFuel
  termLoop := fun _ _ => throw .noFuel
  factor := fun _ => throw .noFuel
  factorLoop := fun _ _ => throw .noFuel
  unary := fun _ => throw .noFuel
  callE := fun _ => throw .noFuel
  callLoop := fun _ _ => throw .noFuel
  finishCall := fun _ _ => throw .noFuel
  argsLoop := fun _ _ => throw .noFuel
  primary := fun _ => throw .noFuel

/-- One fuel level of the expression parser; recursive calls go through
`prev`. Expression-id assignment order follows the source field-evaluation
order in each arm. -/
def PFns.step (prev : PFns) : PFns where
  expression := fun st => prev.assignment st
  assignment := fun st => do
    let (expr, st1) ← prev.orE st
    match pMatches [.equal] st1 with
    | (some _, st2) => do
      let (value, st3) ← prev.assignment st2
      match expr.kind with
      | .var name =>
        let (id, st4) := pGetExprId st3
        pure (.mk id (.assign name value), st4)
      | .get name object =>
        let (id, st4) := pGetExprId st3
        pure (.mk id (.set object name value), st4)
      | _ => throw (.fatal "Invalid assignment target")
    | (none, st2) => pure (expr, st2)
  orE := fun st => do
    let (expr, st1) ← prev.andE st
    prev.orLoop expr st1
  orLoop := fun expr st =>
    match pMatches [.orT] st with
    | (some op, st1) => do
      let (right, st2) ← prev.andE st1
      let (id, st3) := pGetExprId st2
      prev.orLoop (.mk id (.logical expr op right)) st3
    | (none, st1) => pure (expr, st1)
  andE := fun st => do
    let (expr, st1) ← prev.equality st
    prev.andLoop expr st1
  andLoop := fun expr st =>
    match pMatches [.andT] st with
    | (some op, st1) => do
      let (right, st2) ← prev.equality st1
      let (id, st3) := pGetExprId st2
      prev.andLoop (.mk id (.logical expr op right)) st3
    | (none, st1) => pure (expr, st1)
  equality := fun st => do
    let (expr, st1) ← prev.comparison st
    prev.equalityLoop expr st1
  equalityLoop := fun expr st =>
    match pMatches [.bangEqual, .equalEqual] st with
    | (some op, st1) => do
      let (right, st2) ← prev.comparison st1
      let (id, st3) := pGetExprId st2
      prev.equalityLoop (.mk id (.binary expr op right)) st3
    | (none, st1) => pure (expr, st1)
  comparison := fun st => do
    let (expr, st1) ← prev.term st
    prev.comparisonLoop expr st1
  comparisonLoop := fun expr st =>
    match pMatches [.greater, .greaterEqual, .less, .lessEqual] st with
    | (some op, st1) => do
      let (right, st2) ← prev.term st1
      let (id, st3) := pGetExprId st2
      prev.comparisonLoop (.mk id (.binary expr op right)) st3
    | (none, st1) => pure (expr, st1)
  term := fun st => do
    let (expr, st1) ← prev.factor st
    prev.termLoop expr st1
  termLoop := fun expr st =>
    match pMatches [.minus, .plus] st with
    | (some op, st1) => do
      let (right, st2) ← prev.factor st1
      let (id, st3) := pGetExprId st2
      prev.termLoop (.mk id (.binary expr op right)) st3
    | (none, st1) => pure (expr, st1)
  factor := fun st => do
    let (expr, st1) ← prev.unary st
    prev.factorLoop expr st1
  factorLoop := fun expr st =>
    match pMatches [.slash, .star] st with
    | (some op, st1) => do
      let (right, st2) ← prev.unary st1
      let (id, st3) := pGetExprId st2
      prev.factorLoop (.mk id (.binary expr op right)) st3
    | (none, st1) => pure (expr, st1)
  unary := fun st =>
    match pMatches [.bang, .minus] st with
    | (some op, st1) =>
      let (id, st2) := pGetExprId st1
      do
        let (right, st3) ← prev.unary st2
        pure (.mk id (.unary op right), st3)
    | (none, st1) => prev.callE st1
  callE := fun st => do
    let (expr, st1) ← prev.primary st
    prev.callLoop expr st1
  callLoop := fun expr st =>
    match pMatches [.leftParen] st with
    | (some _, st1) => do
      let (e2, st2) ← prev.finishCall expr st1
      prev.callLoop e2 st2
    | (none, st1) =>
      match pMatches [.dot] st1 with
      | (some _, st2) =>
        match pMatches [.identifier] st2 with
        | (some nameTok, st3) =>
          let (id, st4) := pGetExprId st3
          prev.callLoop (.mk id (.get nameTok.lexeme expr)) st4
        | (none, _) => throw (.fatal "Expect property name after dot")
      | (none, st2) => pure (expr, st2)
  finishCall := fun callee st => do
    let (args, st1) ←
      if pPeekMatches [.rightParen] st then
        pure (([] : List Expr), st)
      else do
        let (first, stA) ← prev.expression st
        prev.argsLoop [first] stA
    if args.length > 255 then
      throw (.fatal "cant have more than 255 arguments!")
    else
      match pMatches [.rightParen] st1 with
      | (some tok, st2) =>
        let (id, st3) := pGetExprId st2
        pure (.mk id (.call callee tok args), st3)
      | (none, _) => throw (.fatal "expected right paren in function call")
  argsLoop := fun acc st =>
    match pMatches [.comma] st with
    | (some _, st1) => do
      let (e, st2) ← prev.expression st1
      prev.argsLoop (acc ++ [e]) st2
    | (none, st1) => pure (acc, st1)
  primary := fun st =>
    match st.tokens with
    | [] => throw (.fatal "unexpected end of token stream")
    | token :: rest =>
      let st1 : PState := { st with tokens := rest }
      match token.typ with
      | .falseT =>
        let (id, st2) := pGetExprId st1
        pure (.mk id (.literal (.boolean false)), st2)
      | .trueT =>
        let (id, st2) := pGetExprId st1
        pure (.mk id (.literal (.boolean true)), st2)
      | .nilT =>
        let (id, st2) := pGetExprId st1
        pure (.mk id (.literal .null), st2)
      | .number =>
        match token.lexeme.toNat? with
        | some n =>
          let (id, st2) := pGetExprId st1
          pure (.mk id (.literal (.num n)), st2)
        | none => throw (.fatal "parsing number")
      | .stringT =>
        let (id, st2) := pGetExprId st1
        pure (.mk id (.literal (.str token.lexeme)), st2)
      | .leftParen => do
        let (expr, st2) ← prev.expression st1
        match st2.tokens with
        | [] => throw (.fatal "expected right paren but found no tokens")
        | rp :: rest2 =>
          if rp.typ = .rightParen then
            let (id, st3) := pGetExprId { st2 with tokens := rest2 }
            pure (.mk id (.grouping expr), st3)
          else
            throw (.fatal "expected right paren")
      | .identifier =>
        let (id, st2) := pGetExprId st1
        pure (.mk id (.var token.lexeme), st2)
      | .thisT =>
        let (id, st2) := pGetExprId st1
        pure (.mk id (.this token.lexeme), st2)
      | _ => throw (.fatal "primary: unexpected token")

/-- The parser bundle at a given fuel level. The `Number` arm of `primary`
models the f64 lexeme parse of the source for integer numerals only; no
property proved here parses a fractional numeral. -/
def pAt : Nat → PFns
  | 0 => PFns.stuck
  | fuel + 1 => PFns.step (pAt fuel)

/-- Parser::expression (src/syntax.rs). -/
def expressionP (fuel : Nat) : PState → Res (Expr × PState) :=
  (pAt fuel).expression

/-- Parser::unary (src/syntax.rs): a Bang or Minus token begins a Unary
expression whose operand is parsed recursively; otherwise fall through to
the call grammar. -/
def unaryP (fuel : Nat) : PState → Res (Expr × PState) :=
  (pAt fuel).unary

/-- Parser::primary (src/syntax.rs). -/
def primaryP (fuel : Nat) : PState → Res (Expr × PState) :=
  (pAt fuel).primary

/-- Parser::return_statement (src/syntax.rs lines 401 to 414): start from
a fresh Literal-Null value expression (consuming an expression id), parse
a value expression only when the next token is not a semicolon, require
the semicolon, and build `Stmt::Return`; a bare `return ;` therefore
produces exactly a return of the null literal. -/
def returnStatement (fuel : Nat) (st : PState) : Res (Stmt × PState) := do
  let (id, st1) := pGetExprId st
  let defaultValue : Expr := .mk id (.literal .null)
  let (value, st2) ←
    if !pPeekMatches [.semicolon] st1 then
      expressionP fuel st1
    else
      pure (defaultValue, st1)
  match pMatches [.semicolon] st2 with
  | (some _, st3) => pure (Stmt.ret value, st3)
  | (none, _) => throw (.fatal "expected semicolon")

end Lox

namespace Lox

/-- The value bound to a name in the global environment of a state. -/
def globalValue (s : State) (name : Ident) : Option Obj :=
  match s.envs.get? s.globals with
  | some e => alistGet? e.values name
  | none => none

/-- The values table of the environment at a heap index, for inspecting
block scopes after a run. -/
def envValuesAt (s : State) (i : Nat) : Option (List (Ident × Obj)) :=
  (s.envs.get? i).map EnvRec.values

/-- Numeric payload of a value, when it is a number. -/
def Obj.asNumber? : Obj → Option Rat
  | .number n => some n
  | _ => none

/-- String payload of a value, when it is a string. -/
def Obj.asString? : Obj → Option String
  | .string s => some s
  | _ => none

/-- A right-paren token, standing in for the `parens` token the parser
stores in Call expressions. -/
def parenTok : Token := ⟨.rightParen, ")", 0⟩

/-- Concrete program: the single statement `x = 5;` with `x` never
declared anywhere. -/
def progAssignUndefined : Program :=
  ⟨[.statement (.expr (.mk 1 (.assign "x" (.mk 0 (.literal (.num 5))))))]⟩

/-- Concrete program: `var x = 1; { var y = 5; x = y; }` — a global `x`
assigned from inside a block whose value expression is the local `y`. -/
def progShadowAssign : Program :=
  ⟨[.varDecl "x" (.mk 0 (.literal (.num 1))),
    .statement (.block
      [.varDecl "y" (.mk 1 (.literal (.num 5))),
       .statement (.expr (.mk 3 (.assign "x" (.mk 2 (.var "y")))))])]⟩

/-- Concrete program: `{ var x = 1; { var y = 5; x = y; } }` — the
assignment target `x` lives one scope out, so the resolver records
distance 1 for the Assign expression (id 3). -/
def progNestedAssign : Program :=
  ⟨[.statement (.block
      [.varDecl "x" (.mk 0 (.literal (.num 1))),
       .statement (.block
         [.varDecl "y" (.mk 1 (.literal (.num 5))),
          .statement (.expr (.mk 3 (.assign "x" (.mk 2 (.var "y")))))])])]⟩

/-- Method `greet` of class `A` in the super-dispatch scenario: returns
the string literal `A`. -/
def greetA : FunctionStmt :=
  .mk "greet" [] [.statement (.ret (.mk 0 (.literal (.str "A"))))]

/-- Method `greet` of class `B`: returns `super.greet()`. -/
def greetB : FunctionStmt :=
  .mk "greet" []
    [.statement (.ret (.mk 3 (.call (.mk 2 (.superE "super" "greet")) parenTok [])))]

/-- Concrete program: `class A { greet() {...} } class B < A { greet()
{ return super.greet(); } } class C < B { } var r = C().greet();`. -/
def progSuper : Program :=
  ⟨[.statement (.classDecl (.mk "A" [greetA] none)),
    .statement (.classDecl (.mk "B" [greetB] (some (.mk 1 (.var "A"))))),
    .statement (.classDecl (.mk "C" [] (some (.mk 4 (.var "B"))))),
    .varDecl "r"
      (.mk 8 (.call (.mk 7 (.get "greet"
        (.mk 6 (.call (.mk 5 (.var "C")) parenTok [])))) parenTok []))]⟩

/-- Method `setv(x)` writing `this.v = x;`. -/
def setvK : FunctionStmt :=
  .mk "setv" [⟨.identifier, "x", 0⟩]
    [.statement (.expr (.mk 2 (.set (.mk 0 (.this "this")) "v" (.mk 1 (.var "x")))))]

/-- Concrete program: `class K { setv(x) { this.v = x; } } var k = K();
k.setv(7); var r = k.v;` — a field write through the bound `this` read
back through the original reference `k`. -/
def progFieldShare : Program :=
  ⟨[.statement (.classDecl (.mk "K" [setvK] none)),
    .varDecl "k" (.mk 4 (.call (.mk 3 (.var "K")) parenTok [])),
    .statement (.expr (.mk 8 (.call (.mk 6 (.get "setv" (.mk 5 (.var "k"))))
      parenTok [.mk 7 (.literal (.num 7))]))),
    .varDecl "r" (.mk 10 (.get "v" (.mk 9 (.var "k"))))]⟩

/-- Concrete program: `fun f() { } var r = f == f; var q = f != f;` —
equality between two callable operands. -/
def progFnEq : Program :=
  ⟨[.statement (.functionDecl (.mk "f" [] [])),
    .varDecl "r" (.mk 2 (.binary (.mk 0 (.var "f")) ⟨.equalEqual, "==", 0⟩
      (.mk 1 (.var "f")))),
    .varDecl "q" (.mk 5 (.binary (.mk 3 (.var "f")) ⟨.bangEqual, "!=", 0⟩
      (.mk 4 (.var "f"))))]⟩

/-- Concrete program: `class Foo { init() { return; } }` — the body holds
the Return of the null literal that Parser::return_statement produces for
a bare `return ;`. -/
def progInitReturnBare : Program :=
  ⟨[.statement (.classDecl (.mk "Foo"
      [.mk "init" [] [.statement (.ret (.mk 0 (.literal .null)))]] none))]⟩

/-- Concrete program: `class Foo { init() { return true; } }` — a return
carrying a value inside an initializer. -/
def progInitReturnValue : Program :=
  ⟨[.statement (.classDecl (.mk "Foo"
      [.mk "init" [] [.statement (.ret (.mk 0 (.literal (.boolean true))))]] none))]⟩

/-- An `init(x)` declaration with one parameter and an empty body. -/
def initX : FunctionStmt := .mk "init" [⟨.identifier, "x", 0⟩] []

/-- A class `A4` with an explicit one-parameter `init`. -/
def clsA4 : ClassVal := .mk "A4" [("init", ⟨initX, 0, true⟩)] none

/-- A class `B4` declared with no explicit `init` of its own, inheriting
from `clsA4`. -/
def clsB4 : ClassVal := .mk "B4" [] (some clsA4)

/-- A state whose single global binds `B` to the class `clsB4`. -/
def stateB4 : State :=
  ⟨[⟨none, [("B", .classObj clsB4)]⟩], [], 0, 0, []⟩

/-- A state with the environment chain a bound method body sees in the
super-dispatch scenario: globals (0) ← the class-declaration `super` scope
(1, binding `super` to a class with a `greet` method) ← the `bind` scope
(2, binding `this`) ← the call scope (3, current); the locals table maps
the super-expression id 7 to distance 2. -/
def stateSuper : State :=
  ⟨[⟨none, []⟩,
    ⟨some 0, [("super", .classObj (.mk "A" [("greet", ⟨greetA, 0, false⟩)] none))]⟩,
    ⟨some 1, [("this", .classInstance ⟨.mk "B" [] none, 0⟩)]⟩,
    ⟨some 2, []⟩],
   [[]], 0, 3, [(7, 2)]⟩

end Lox

namespace Lox

/-- Tag classifier for the four primitive value tags that `is_equal`
compares by value: string, number, boolean, null; `none` for callables,
classes and instances. Used only to state the equality claims. -/
def Obj.primTag? : Obj → Option Nat
  | .string _ => some 0
  | .number _ => some 1
  | .boolean _ => some 2
  | .null => some 3
  | _ => none

end Lox

namespace Lox

/-- Looking up the key just inserted by alistInsert yields the new value. -/
theorem alistGet?_insert_self {α : Type} (m : List (Ident × α)) (k : Ident)
    (v : α) : alistGet? (alistInsert m k v) k = some v := by
  induction m with
  | nil => simp [alistInsert, alistGet?]
  | cons hd tl ih =>
    obtain ⟨k1, v1⟩ := hd
    by_cases hk : k1 = k
    · simp [alistInsert, alistGet?, hk]
    · simp [alistInsert, alistGet?, hk, ih]

/-- Setting the element just appended replaces it. -/
theorem set_append_length {α : Type} (l : List α) (a b : α) :
    (l ++ [a]).set l.length b = l ++ [b] := by
  induction l with
  | nil => rfl
  | cons hd tl ih => simp [List.set, ih]

/-- Reading the element just appended. -/
theorem get?_append_length {α : Type} (l : List α) (a : α) :
    (l ++ [a]).get? l.length = some a := by
  induction l with
  | nil => rfl
  | cons hd tl ih => simp only [List.cons_append, List.length_cons, List.get?]; exact ih

/-- Claim C2, counterexample to the claim as stated: evaluating `f == f`
and `f != f` on a user function through the whole pipeline is not a fatal
runtime error; it yields false and true respectively. -/
theorem claim_C2_counterexample :
    ((runProgram 100 progFnEq).toOption.bind (fun s => globalValue s "r")
        = some (.boolean false))
    ∧ ((runProgram 100 progFnEq).toOption.bind (fun s => globalValue s "q")
        = some (.boolean true)) :=
  ⟨rfl, rfl⟩

/-- Claim C2 (amended): evaluating `==` or `!=` never faults, whatever the
operands; the result is the boolean `is_equal`, which is false between two
callables, two classes or two instances (even identical operands), false
across different tags among string, number, boolean and null, and
by-value for same-tag primitives. -/
theorem claim_C2 :
    (∀ l r : Obj, binaryOp l .equalEqual r = .ok (.boolean (isEqual l r)))
    ∧ (∀ l r : Obj, binaryOp l .bangEqual r = .ok (.boolean (!isEqual l r)))
    ∧ (∀ f g, isEqual (.callable f) (.callable g) = false)
    ∧ (∀ c d, isEqual (.classObj c) (.classObj d) = false)
    ∧ (∀ i j, isEqual (.classInstance i) (.classInstance j) = false)
    ∧ (∀ (l r : Obj) (t1 t2 : Nat), l.primTag? = some t1 → r.primTag? = some t2 →
        t1 ≠ t2 → isEqual l r = false)
    ∧ (∀ a b, isEqual (.string a) (.string b) = (a == b))
    ∧ (∀ a b : Rat, isEqual (.number a) (.number b) = (a == b))
    ∧ (∀ a b, isEqual (.boolean a) (.boolean b) = (a == b))
    ∧ isEqual .null .null = true := by
  refine ⟨?_, ?_, ?_, ?_, ?_, ?_, ?_, ?_, ?_, rfl⟩
  · intro l r; cases l <;> cases r <;> rfl
  · intro l r; cases l <;> cases r <;> rfl
  · intro f g; rfl
  · intro c d; rfl
  · intro i j; rfl
  · intro l r t1 t2 h1 h2 hne
    cases l <;> cases r <;>
      simp_all [Obj.primTag?, isEqual]
  · intro a b; rfl
  · intro a b; rfl
  · intro a b; rfl

/-- Claim C2 witness: the cross-tag conjunct applied at a string and a
number. -/
theorem claim_C2_witness :
    isEqual (.string "a") (.number 1) = false :=
  claim_C2.2.2.2.2.2.1 (.string "a") (.number 1) 0 1 rfl rfl (by decide)

/-- Claim C4, counterexample to the claim as stated: `clsB4` is declared
with no explicit `init` method of its own, yet its constructor arity is
the inherited initializer arity 1, so calling it with zero arguments is a
fatal arity error instead of succeeding. -/
theorem claim_C4_counterexample :
    clsB4.methods = [] ∧ clsB4.arity = 1 ∧
    evalCall 10 (.mk 0 (.var "B")) [] stateB4 =
      .error (.fatal "called fn with wrong number of arguments") :=
  ⟨rfl, rfl, rfl⟩

/-- Unfolding of eval_call at successor fuel, in terms of the wrappers at
the previous level. -/
theorem evalCall_succ (fuel : Nat) (calleeE : Expr) (args : List Expr)
    (s : State) :
    evalCall (fuel + 1) calleeE args s =
      (do
        let (calleeV, s1) ← evalE fuel calleeE s
        let (argVals, s2) ← evalArgs fuel args s1
        let callable ←
          match calleeV with
          | .callable c => pure (CallableRef.fn c)
          | .classObj c => pure (CallableRef.cls c)
          | _ => throw (.fatal "value is not callable")
        if callable.arity ≠ argVals.length then
          throw (.fatal "called fn with wrong number of arguments")
        else
          callableCall fuel callable argVals s2) := rfl

/-- Unfolding of the callable dispatch at successor fuel. -/
theorem callableCall_succ (fuel : Nat) (c : CallableRef) (args : List Obj)
    (s : State) :
    callableCall (fuel + 1) c args s =
      (match c with
      | .fn f => callFunction fuel f args s
      | .cls cl => callClass fuel cl args s) := rfl

/-- Unfolding of Function::call at successor fuel. -/
theorem callFunction_succ (fuel : Nat) (f : Fn) (args : List Obj) (s : State) :
    callFunction (fuel + 1) f args s =
      (do
        let (env, s1) := newEnvRef s (some f.closure)
        let s2 ← defineParams f.decl.parameters args env s1
        let (flow, s3) ← executeBlock fuel f.decl.body env s2
        match flow with
        | .err x => pure (x, s3)
        | .ok retValue =>
          if f.isInitializer then do
            let v ← envGetAt (s3.envs.length + 1) s3 f.closure 0 "this"
            pure (v, s3)
          else
            pure (retValue, s3)) := rfl

/-- Unfolding of Class::call at successor fuel. -/
theorem callClass_succ (fuel : Nat) (c : ClassVal) (args : List Obj)
    (s : State) :
    callClass (fuel + 1) c args s =
      (do
        let (instance_, s1) := newInstance s c
        match c.findMethod "init" with
        | some (.callable initFn) =>
          let (bound, s2) := initFn.bind instance_ s1
          match bound with
          | .callable b => do
            let (_, s3) ← callFunction fuel b args s2
            pure (.classInstance instance_, s3)
          | _ =>
            throw (.fatal "initializer bind did not return a callable, this is a bug")
        | some _ => throw (.fatal "init method must be a callable")
        | none => pure (.classInstance instance_, s1)) := rfl

/-- Unfolding of eval_assign at successor fuel. -/
theorem evalAssign_succ (fuel : Nat) (name : Ident) (child : Expr) (s : State) :
    evalAssign (fuel + 1) name child s =
      (do
        let (value, s1) ← evalE fuel child s
        match localsGet? s1.locals child.id with
        | some distance => do
          let s2 ← envAssignAt (s1.envs.length + 1) s1 s1.environment distance
            name value
          pure (value, s2)
        | none => do
          let (_, s2) ← envMutate (s1.envs.length + 1) s1 s1.environment name value
          pure (value, s2)) := rfl

/-- Unfolding of eval_logical at successor fuel. -/
theorem evalLogical_succ (fuel : Nat) (leftE : Expr) (op : Token)
    (rightE : Expr) (s : State) :
    evalLogical (fuel + 1) leftE op rightE s =
      (do
        let (left, s1) ← evalE fuel leftE s
        if op.typ = .orT then
          if ← left.isTruthy then pure (left, s1)
          else evalE fuel rightE s1
        else
          if !(← left.isTruthy) then pure (left, s1)
          else evalE fuel rightE s1) := rfl

/-- Unfolding of eval_unary at successor fuel. -/
theorem evalUnary_succ (fuel : Nat) (op : Token) (right : Expr) (s : State) :
    evalUnary (fuel + 1) op right s =
      (match op.typ with
      | .minus => do
        let (sub, s1) ← evalE fuel right s
        match sub with
        | .number n => pure (.number (-n), s1)
        | _ => throw (.fatal "invalid ")
      | _ => throw (.fatal "unexpected token. Expecting minus")) := rfl

/-- Unfolding of eval_get at successor fuel. -/
theorem evalGet_succ (fuel : Nat) (name : Ident) (object : Expr) (s : State) :
    evalGet (fuel + 1) name object s =
      (do
        let (obj, s1) ← evalE fuel object s
        match obj with
        | .classInstance ins => instanceGet s1 ins name
        | _ => throw (.fatal "only instances have properties")) := rfl

/-- Unfolding of eval at successor fuel on a Super expression. -/
theorem evalE_superE_succ (fuel : Nat) (id : Nat) (tok method : Ident)
    (s : State) :
    evalE (fuel + 1) (.mk id (.superE tok method)) s =
      (do
        let distance ←
          match localsGet? s.locals id with
          | some d => pure d
          | none => throw (.fatal "bug: super expression missing from locals")
        let superV ← envGetAt (s.envs.length + 1) s s.environment distance "super"
        let superclass ←
          match superV with
          | .classObj c => pure c
          | _ => throw (.fatal "bug: environment.get super did not return a class")
        let thisV ← envGetAt (s.envs.length + 1) s s.environment (distance - 1)
          "this"
        let object ←
          match thisV with
          | .classInstance i => pure i
          | _ =>
            throw (.fatal "bug: environment.get this did not return a class instance")
        match superclass.findMethod method with
        | some (.callable m) => pure (m.bind object s)
        | _ => throw (.fatal "method not found")) := rfl

/-- Unfolding of statement execution at successor fuel on a Block. -/
theorem executeStmt_block_succ (fuel : Nat) (decls : List Declaration)
    (s : State) :
    executeStmt (fuel + 1) (.block decls) s =
      (let (env, s1) := newEnvRef s (some s.environment)
       executeBlock fuel decls env s1) := rfl

/-- Unfolding of statement execution at successor fuel on a While. -/
theorem executeStmt_while_succ (fuel : Nat) (condition : Expr) (body : Stmt)
    (s : State) :
    executeStmt (fuel + 1) (.whileS condition body) s =
      (do
        let (cv, s1) ← evalE fuel condition s
        let conditionValue ←
          match cv with
          | Obj.boolean value => pure value
          | _ => throw (.fatal "while condition can only be boolean")
        if conditionValue then do
          let (flow, s2) ← executeStmt fuel body s1
          match flow with
          | .err v => pure (.err v, s2)
          | .ok _ => executeStmt fuel (.whileS condition body) s2
        else
          pure (.ok .null, s1)) := rfl

/-- Unfolding of the execute_block statement loop at successor fuel. -/
theorem executeSeq_cons_succ (fuel : Nat) (d : Declaration)
    (ds : List Declaration) (last : Obj) (s : State) :
    executeSeq (fuel + 1) (d :: ds) last s =
      (do
        let (flow, s1) ← executeDecl fuel d s
        match flow with
        | .ok v => executeSeq fuel ds v s1
        | .err v => pure (.err v, s1)) := rfl

/-- Unfolding of execute_block at successor fuel. -/
theorem executeBlock_succ (fuel : Nat) (statements : List Declaration)
    (env : Nat) (s : State) :
    executeBlock (fuel + 1) statements env s =
      (do
        let (flow, s2) ← executeSeq fuel statements Obj.null
          { s with environment := env }
        pure (flow, { s2 with environment := s.environment })) := rfl

/-- Unfolding of the resolver at successor fuel on a Return statement. -/
theorem resolveStmt_ret_succ (fuel : Nat) (value : Expr) (st : RState) :
    resolveStmt (fuel + 1) (.ret value) st =
      (if st.currentFunction = .none then
        throw (.fatal "cant return from a top-level function")
      else if st.currentFunction = .initializer then
        throw (.fatal "cant return from an initializer")
      else
        resolveExpr fuel value st) := rfl

/-- Claim C4 (amended): for every class whose whole superclass chain has
no `init` method, the reported arity is 0, a zero-argument constructor
call succeeds and returns a fresh instance with an empty field table, and
a call with one or more arguments is a fatal arity error raised by
eval_call before the call dispatches. -/
theorem claim_C4 :
    (∀ c : ClassVal, c.findMethodFn "init" = none → c.arity = 0)
    ∧ (∀ fuel c s, c.findMethodFn "init" = none →
        callClass (fuel + 1) c [] s =
          .ok (.classInstance ⟨c, s.fieldTables.length⟩,
               { s with fieldTables := s.fieldTables ++ [[]] }))
    ∧ (∀ fuel calleeE args s c s1 s2, c.findMethodFn "init" = none →
        evalE (fuel + 2) calleeE s = .ok (.classObj c, s1) →
        evalArgs (fuel + 2) args s1 = .ok ([], s2) →
        evalCall (fuel + 3) calleeE args s =
          .ok (.classInstance ⟨c, s2.fieldTables.length⟩,
               { s2 with fieldTables := s2.fieldTables ++ [[]] }))
    ∧ (∀ fuel calleeE args s c s1 argVals s2, c.findMethodFn "init" = none →
        evalE fuel calleeE s = .ok (.classObj c, s1) →
        evalArgs fuel args s1 = .ok (argVals, s2) → argVals ≠ [] →
        evalCall (fuel + 1) calleeE args s =
          .error (.fatal "called fn with wrong number of arguments")) := by
  have harity : ∀ c : ClassVal, c.findMethodFn "init" = none → c.arity = 0 := by
    intro c h; simp [ClassVal.arity, h]
  have hclass : ∀ fuel c s, c.findMethodFn "init" = none →
      callClass (fuel + 1) c [] s =
        .ok (.classInstance ⟨c, s.fieldTables.length⟩,
             { s with fieldTables := s.fieldTables ++ [[]] }) := by
    intro fuel c s h
    rw [callClass_succ]
    simp [ClassVal.findMethod, h, newInstance, pure, Except.pure]
  refine ⟨harity, hclass, ?_, ?_⟩
  · intro fuel calleeE args s c s1 s2 h he ha
    rw [show fuel + 3 = (fuel + 2) + 1 by rfl, evalCall_succ, he]
    simp only [Bind.bind, Except.bind]
    rw [ha]
    simp only [pure, Except.pure, CallableRef.arity, harity c h,
      List.length_nil, ne_eq, not_true_eq_false, reduceIte]
    rw [show fuel + 2 = (fuel + 1) + 1 by rfl, callableCall_succ]
    show callClass (fuel + 1) c [] s2 = _
    exact hclass fuel c s2 h
  · intro fuel calleeE args s c s1 argVals s2 h he ha hne
    rw [evalCall_succ, he]
    simp only [Bind.bind, Except.bind]
    rw [ha]
    have hlen : (0 : Nat) ≠ argVals.length := by
      cases argVals with
      | nil => exact absurd rfl hne
      | cons a t => simp
    simp only [pure, Except.pure, CallableRef.arity, harity c h, ne_eq]
    rw [if_pos hlen]
    rfl

/-- Claim C4 witness: a class with an empty chain-wide method table,
called with zero and then with one argument. -/
theorem claim_C4_witness :
    callClass 1 (.mk "E" [] none) [] (initState []) =
      .ok (.classInstance ⟨.mk "E" [] none, 0⟩,
           { initState [] with fieldTables := [[]] })
    ∧ evalCall 3 (.mk 0 (.var "E")) [.mk 1 (.literal (.num 1))]
        ⟨[⟨none, [("E", .classObj (.mk "E" [] none))]⟩], [], 0, 0, []⟩ =
        .error (.fatal "called fn with wrong number of arguments") := by
  constructor
  · exact claim_C4.2.1 0 (.mk "E" [] none) (initState []) rfl
  · exact claim_C4.2.2.2 2 (.mk 0 (.var "E")) [.mk 1 (.literal (.num 1))]
      ⟨[⟨none, [("E", .classObj (.mk "E" [] none))]⟩], [], 0, 0, []⟩
      (.mk "E" [] none)
      ⟨[⟨none, [("E", .classObj (.mk "E" [] none))]⟩], [], 0, 0, []⟩
      [.number 1]
      ⟨[⟨none, [("E", .classObj (.mk "E" [] none))]⟩], [], 0, 0, []⟩
      rfl rfl rfl (by simp)

/-- Claim C7: a property read checks the instance field table first and
returns the stored value on a hit; otherwise it looks a method up through
find_method, binds it to the receiving instance and returns the bound
callable; with neither it is a fatal undefined-property error. A field
assignment writes into the shared field table unconditionally, so after
assigning to a name that is also a method name a subsequent read returns
the assigned value, not the method. -/
theorem claim_C7 :
    (∀ fuel name objE s ins s1,
        evalE fuel objE s = .ok (.classInstance ins, s1) →
        evalGet (fuel + 1) name objE s = instanceGet s1 ins name)
    ∧ (∀ s ins name v, alistGet? (fieldsOf s ins) name = some v →
        instanceGet s ins name = .ok (v, s))
    ∧ (∀ s (ins : InstanceVal) name m, alistGet? (fieldsOf s ins) name = none →
        ins.cls.findMethod name = some (.callable m) →
        instanceGet s ins name = .ok (m.bind ins s))
    ∧ (∀ s (ins : InstanceVal) name, alistGet? (fieldsOf s ins) name = none →
        ins.cls.findMethod name = none →
        instanceGet s ins name = .error (.fatal ("Undefined property " ++ name)))
    ∧ (∀ s (ins : InstanceVal) name v, ins.fields < s.fieldTables.length →
        fieldsOf (instanceSet s ins name v) ins =
          alistInsert (fieldsOf s ins) name v)
    ∧ (∀ s (ins : InstanceVal) name v, ins.fields < s.fieldTables.length →
        instanceGet (instanceSet s ins name v) ins name =
          .ok (v, instanceSet s ins name v)) := by
  have hset : ∀ s (ins : InstanceVal) name v, ins.fields < s.fieldTables.length →
      fieldsOf (instanceSet s ins name v) ins =
        alistInsert (fieldsOf s ins) name v := by
    intro s ins name v hlt
    simp only [fieldsOf, instanceSet, List.getD, List.get?_eq_getElem?,
      List.getElem?_set_eq_of_lt _ hlt]
    rfl
  refine ⟨?_, ?_, ?_, ?_, hset, ?_⟩
  · intro fuel name objE s ins s1 h
    rw [evalGet_succ, h]
    rfl
  · intro s ins name v h
    simp [instanceGet, h]
    rfl
  · intro s ins name m h1 h2
    simp [instanceGet, h1, h2]
    rfl
  · intro s ins name h1 h2
    simp [instanceGet, h1, h2, throw, throwThe, MonadExceptOf.throw]
  · intro s ins name v hlt
    have h := hset s ins name v hlt
    simp [instanceGet, h, alistGet?_insert_self]
    rfl

/-- Claim C7 witness: an instance whose class has a method `m` and whose
field table already stores a field `f`; the three read paths and the
write-then-read path at concrete inputs. -/
theorem claim_C7_witness :
    instanceGet
      ⟨[⟨none, []⟩], [[("f", .number 2)]], 0, 0, []⟩
      ⟨.mk "W" [("m", ⟨.mk "m" [] [], 0, false⟩)] none, 0⟩ "f" =
      .ok (.number 2, ⟨[⟨none, []⟩], [[("f", .number 2)]], 0, 0, []⟩)
    ∧ instanceGet
        ⟨[⟨none, []⟩], [[("f", .number 2)]], 0, 0, []⟩
        ⟨.mk "W" [("m", ⟨.mk "m" [] [], 0, false⟩)] none, 0⟩ "g" =
        .error (.fatal ("Undefined property " ++ "g"))
    ∧ instanceGet
        (instanceSet ⟨[⟨none, []⟩], [[("f", .number 2)]], 0, 0, []⟩
          ⟨.mk "W" [("m", ⟨.mk "m" [] [], 0, false⟩)] none, 0⟩ "m" (.number 9))
        ⟨.mk "W" [("m", ⟨.mk "m" [] [], 0, false⟩)] none, 0⟩ "m" =
        .ok (.number 9,
          instanceSet ⟨[⟨none, []⟩], [[("f", .number 2)]], 0, 0, []⟩
            ⟨.mk "W" [("m", ⟨.mk "m" [] [], 0, false⟩)] none, 0⟩ "m" (.number 9)) := by
  refine ⟨?_, ?_, ?_⟩
  · exact claim_C7.2.1 _ _ "f" (.number 2) rfl
  · exact claim_C7.2.2.2.1 _ _ "g" rfl rfl
  · exact claim_C7.2.2.2.2.2 _ _ "m" (.number 9) (by decide)

/-- Claim C8: logical and and or evaluate the left operand, whose
truthiness test is fatal on every non-boolean tag; or answers the left
operand itself when it is true and and answers it when it is false,
without evaluating the right operand; otherwise the result is exactly the
evaluation of the right operand, never a coerced boolean. -/
theorem claim_C8 :
    (∀ fuel le op re s v s1, evalE fuel le s = .ok (v, s1) →
        (∀ b, v ≠ .boolean b) →
        evalLogical (fuel + 1) le op re s =
          .error (.fatal "invalid non-boolean value evaluated to truthy"))
    ∧ (∀ fuel le op re s s1, op.typ = .orT →
        evalE fuel le s = .ok (.boolean true, s1) →
        evalLogical (fuel + 1) le op re s = .ok (.boolean true, s1))
    ∧ (∀ fuel le op re s s1, op.typ ≠ .orT →
        evalE fuel le s = .ok (.boolean false, s1) →
        evalLogical (fuel + 1) le op re s = .ok (.boolean false, s1))
    ∧ (∀ fuel le op re s s1, op.typ = .orT →
        evalE fuel le s = .ok (.boolean false, s1) →
        evalLogical (fuel + 1) le op re s = evalE fuel re s1)
    ∧ (∀ fuel le op re s s1, op.typ ≠ .orT →
        evalE fuel le s = .ok (.boolean true, s1) →
        evalLogical (fuel + 1) le op re s = evalE fuel re s1) := by
  refine ⟨?_, ?_, ?_, ?_, ?_⟩
  · intro fuel le op re s v s1 hl hv
    rw [evalLogical_succ, hl]
    by_cases hop : op.typ = .orT <;>
      cases v <;>
      first
        | exact absurd rfl (hv _)
        | simp [hop, Obj.isTruthy, Bind.bind, Except.bind, throw, throwThe,
            MonadExceptOf.throw]
  · intro fuel le op re s s1 hop hl
    rw [evalLogical_succ, hl]
    simp [hop, Obj.isTruthy, Bind.bind, Except.bind, pure, Except.pure]
  · intro fuel le op re s s1 hop hl
    rw [evalLogical_succ, hl]
    simp [hop, Obj.isTruthy, Bind.bind, Except.bind, pure, Except.pure]
  · intro fuel le op re s s1 hop hl
    rw [evalLogical_succ, hl]
    simp [hop, Obj.isTruthy, Bind.bind, Except.bind, pure, Except.pure]
  · intro fuel le op re s s1 hop hl
    rw [evalLogical_succ, hl]
    simp [hop, Obj.isTruthy, Bind.bind, Except.bind, pure, Except.pure]

/-- Claim C8 witness: the five behaviours at concrete operands: a fatal
number in boolean context, both short-circuits answering the left operand
itself, and both fall-through cases answering the right evaluation. -/
theorem claim_C8_witness :
    evalLogical 2 (.mk 0 (.literal (.num 1))) ⟨.orT, "or", 0⟩
        (.mk 1 (.literal .null)) (initState []) =
      .error (.fatal "invalid non-boolean value evaluated to truthy")
    ∧ evalLogical 2 (.mk 0 (.literal (.boolean true))) ⟨.orT, "or", 0⟩
        (.mk 1 (.literal .null)) (initState []) =
        .ok (.boolean true, initState [])
    ∧ evalLogical 2 (.mk 0 (.literal (.boolean false))) ⟨.andT, "and", 0⟩
        (.mk 1 (.literal .null)) (initState []) =
        .ok (.boolean false, initState [])
    ∧ evalLogical 2 (.mk 0 (.literal (.boolean false))) ⟨.orT, "or", 0⟩
        (.mk 1 (.literal (.str "right"))) (initState []) =
        evalE 1 (.mk 1 (.literal (.str "right"))) (initState [])
    ∧ evalLogical 2 (.mk 0 (.literal (.boolean true))) ⟨.andT, "and", 0⟩
        (.mk 1 (.literal (.str "right"))) (initState []) =
        evalE 1 (.mk 1 (.literal (.str "right"))) (initState []) := by
  refine ⟨?_, ?_, ?_, ?_, ?_⟩
  · exact claim_C8.1 1 _ _ _ _ (.number 1) _ rfl (by intro b h; cases h)
  · exact claim_C8.2.1 1 _ _ _ _ _ rfl rfl
  · exact claim_C8.2.2.1 1 _ _ _ _ _ (by decide) rfl
  · exact claim_C8.2.2.2.1 1 _ _ _ _ _ rfl rfl
  · exact claim_C8.2.2.2.2 1 _ _ _ _ _ (by decide) rfl

/-- Claim C9: unary evaluation handles only the minus operator — with any
other operator token, in particular the logical-not Bang that the parser
accepts, it is a fatal error; minus demands a Number operand, yields its
arithmetic negation, and is fatal on every other tag. -/
theorem claim_C9 :
    (∀ fuel op right s, op.typ ≠ .minus →
        evalUnary (fuel + 1) op right s =
          .error (.fatal "unexpected token. Expecting minus"))
    ∧ (∀ fuel op right s n s1, op.typ = .minus →
        evalE fuel right s = .ok (.number n, s1) →
        evalUnary (fuel + 1) op right s = .ok (.number (-n), s1))
    ∧ (∀ fuel op right s v s1, op.typ = .minus →
        evalE fuel right s = .ok (v, s1) → (∀ n, v ≠ .number n) →
        evalUnary (fuel + 1) op right s = .error (.fatal "invalid "))
    ∧ unaryP 10 ⟨[⟨.bang, "!", 0⟩, ⟨.trueT, "true", 0⟩], 0⟩ =
        .ok (.mk 0 (.unary ⟨.bang, "!", 0⟩ (.mk 1 (.literal (.boolean true)))),
             ⟨[], 2⟩) := by
  refine ⟨?_, ?_, ?_, rfl⟩
  · intro fuel op right s hop
    rw [evalUnary_succ]
    rcases op with ⟨typ, lexeme, line⟩
    cases typ <;> first | (exact absurd rfl hop) | rfl
  · intro fuel op right s n s1 hop hr
    rw [evalUnary_succ, hop, hr]
    rfl
  · intro fuel op right s v s1 hop hr hv
    rw [evalUnary_succ, hop, hr]
    cases v <;>
      first
        | exact absurd rfl (hv _)
        | rfl

/-- Claim C9 witness: a Bang unary is fatal, minus negates a number, and
minus on a string is fatal, each at concrete inputs. -/
theorem claim_C9_witness :
    evalUnary 2 ⟨.bang, "!", 0⟩ (.mk 0 (.literal (.boolean true)))
        (initState []) =
      .error (.fatal "unexpected token. Expecting minus")
    ∧ evalUnary 2 ⟨.minus, "-", 0⟩ (.mk 0 (.literal (.num 3)))
        (initState []) = .ok (.number (-3), initState [])
    ∧ evalUnary 2 ⟨.minus, "-", 0⟩ (.mk 0 (.literal (.str "s")))
        (initState []) = .error (.fatal "invalid ") := by
  refine ⟨?_, ?_, ?_⟩
  · exact claim_C9.1 1 _ _ _ (by decide)
  · exact claim_C9.2.1 1 _ _ _ 3 _ rfl rfl
  · exact claim_C9.2.2.1 1 _ _ _ (.string "s") _ rfl rfl
      (by intro n h; cases h)

/-- Claim C5: a super-method expression fetches the superclass at the
recorded distance and the current instance one hop nearer, runs
find_method from that statically named superclass, and answers that
method bound to the current instance; in the concrete three-class
program, C below B below A with greet on A and B, the call of greet on a
C instance reaches the version of B, whose super call reaches the version
of A. -/
theorem claim_C5 :
    (∀ fuel id tok method s distance superclass object m,
        localsGet? s.locals id = some distance →
        envGetAt (s.envs.length + 1) s s.environment distance "super" =
          .ok (.classObj superclass) →
        envGetAt (s.envs.length + 1) s s.environment (distance - 1) "this" =
          .ok (.classInstance object) →
        superclass.findMethod method = some (.callable m) →
        evalE (fuel + 1) (.mk id (.superE tok method)) s =
          .ok (m.bind object s))
    ∧ ((runProgram 100 progSuper).toOption.bind
        (fun s => globalValue s "r") = some (.string "A")) := by
  refine ⟨?_, rfl⟩
  intro fuel id tok method s distance superclass object m hd hsup hthis hm
  rw [evalE_superE_succ]
  simp [hd, hsup, hthis, hm, Bind.bind, Except.bind, pure, Except.pure]

/-- Claim C5 witness: the general super-dispatch equation applied in a
concrete environment chain carrying `super` at distance 2 and `this` at
distance 1. -/
theorem claim_C5_witness :
    evalE 1 (.mk 7 (.superE "super" "greet")) stateSuper =
      .ok ((Fn.mk greetA 0 false).bind ⟨.mk "B" [] none, 0⟩ stateSuper) :=
  claim_C5.1 0 7 "super" "greet" stateSuper 2
    (.mk "A" [("greet", ⟨greetA, 0, false⟩)] none)
    ⟨.mk "B" [] none, 0⟩ ⟨greetA, 0, false⟩ rfl rfl rfl rfl

/-- Claim C6: a block runs its declarations in a fresh child scope of the
current environment and the interpreter restores the previous environment
on every non-fatal exit, normal or return-signal; a return signal inside
a statement list skips the remaining declarations, stops a while loop,
and propagates unchanged until Function::call unwraps it into the result
value of the call. -/
theorem claim_C6 :
    (∀ fuel decls s, executeStmt (fuel + 1) (.block decls) s =
        (let (env, s1) := newEnvRef s (some s.environment)
         executeBlock fuel decls env s1))
    ∧ (∀ fuel decls env s r, executeBlock (fuel + 1) decls env s = .ok r →
        r.2.environment = s.environment)
    ∧ (∀ fuel d ds last s v s1, executeDecl fuel d s = .ok (.err v, s1) →
        executeSeq (fuel + 1) (d :: ds) last s = .ok (.err v, s1))
    ∧ (∀ fuel cond body s s1 v s2,
        evalE fuel cond s = .ok (.boolean true, s1) →
        executeStmt fuel body s1 = .ok (.err v, s2) →
        executeStmt (fuel + 1) (.whileS cond body) s = .ok (.err v, s2))
    ∧ (∀ fuel decls env s v s2,
        executeSeq fuel decls Obj.null { s with environment := env } =
          .ok (.err v, s2) →
        executeBlock (fuel + 1) decls env s =
          .ok (.err v, { s2 with environment := s.environment }))
    ∧ (∀ fuel f args s s2 x s3,
        defineParams f.decl.parameters args (newEnvRef s (some f.closure)).1
          (newEnvRef s (some f.closure)).2 = .ok s2 →
        executeBlock fuel f.decl.body (newEnvRef s (some f.closure)).1 s2 =
          .ok (.err x, s3) →
        callFunction (fuel + 1) f args s = .ok (x, s3)) := by
  refine ⟨?_, ?_, ?_, ?_, ?_, ?_⟩
  · intro fuel decls s
    exact executeStmt_block_succ fuel decls s
  · intro fuel decls env s r h
    rw [executeBlock_succ] at h
    cases hseq : executeSeq fuel decls Obj.null { s with environment := env } with
    | error e => rw [hseq] at h; simp [Bind.bind, Except.bind] at h
    | ok p =>
      rw [hseq] at h
      simp only [Bind.bind, Except.bind, pure, Except.pure, Except.ok.injEq] at h
      rw [← h]
  · intro fuel d ds last s v s1 h
    rw [executeSeq_cons_succ, h]
    rfl
  · intro fuel cond body s s1 v s2 hc hb
    rw [executeStmt_while_succ, hc]
    simp only [Bind.bind, Except.bind, pure, Except.pure]
    rw [hb]
    rfl
  · intro fuel decls env s v s2 hseq
    rw [executeBlock_succ, hseq]
    rfl
  · intro fuel f args s s2 x s3 hp hb
    rw [callFunction_succ]
    simp only [Bind.bind, Except.bind, hp, hb]
    rfl

/-- Claim C6 witness: the block arm equation at a concrete empty block;
environment restoration after a concrete block; skipping after a concrete
return declaration; a concrete while whose body returns; and a concrete
call unwrapping the signal of `return 3;` into the value 3. -/
theorem claim_C6_witness :
    executeStmt 1 (.block []) (initState []) =
      (let (env, s1) := newEnvRef (initState []) (some 0)
       executeBlock 0 [] env s1)
    ∧ (⟨[⟨none, []⟩, ⟨some 0, []⟩], [], 0, 0, []⟩ : State).environment =
        (initState []).environment
    ∧ executeSeq 4 [.statement (.ret (.mk 0 (.literal .null))),
        .statement (.print (.mk 1 (.literal .null)))] .null (initState []) =
        .ok (.err .null, initState [])
    ∧ executeStmt 4 (.whileS (.mk 0 (.literal (.boolean true)))
        (.ret (.mk 1 (.literal .null)))) (initState []) =
        .ok (.err .null, initState [])
    ∧ executeBlock 5 [.statement (.ret (.mk 0 (.literal .null)))] 1
        ⟨[⟨none, []⟩, ⟨some 0, []⟩], [], 0, 0, []⟩ =
        .ok (.err .null, ⟨[⟨none, []⟩, ⟨some 0, []⟩], [], 0, 0, []⟩)
    ∧ callFunction 7
        ⟨.mk "g" [] [.statement (.ret (.mk 0 (.literal (.num 3))))], 0, false⟩
        [] (initState []) =
        .ok (.number 3, ⟨[⟨none, []⟩, ⟨some 0, []⟩], [], 0, 0, []⟩) := by
  refine ⟨?_, ?_, ?_, ?_, ?_, ?_⟩
  · exact claim_C6.1 0 [] (initState [])
  · exact claim_C6.2.1 1 [] 1
      ⟨[⟨none, []⟩, ⟨some 0, []⟩], [], 0, 0, []⟩
      (.ok .null, ⟨[⟨none, []⟩, ⟨some 0, []⟩], [], 0, 0, []⟩) rfl
  · exact claim_C6.2.2.1 3 _ _ .null (initState []) .null (initState []) rfl
  · exact claim_C6.2.2.2.1 3 _ _ (initState []) (initState []) .null
      (initState []) rfl rfl
  · exact claim_C6.2.2.2.2.1 4 [.statement (.ret (.mk 0 (.literal .null)))] 1
      ⟨[⟨none, []⟩, ⟨some 0, []⟩], [], 0, 0, []⟩ .null
      ⟨[⟨none, []⟩, ⟨some 0, []⟩], [], 0, 1, []⟩ rfl
  · exact claim_C6.2.2.2.2.2 6
      ⟨.mk "g" [] [.statement (.ret (.mk 0 (.literal (.num 3))))], 0, false⟩
      [] (initState [])
      ⟨[⟨none, []⟩, ⟨some 0, []⟩], [], 0, 0, []⟩
      (.number 3) ⟨[⟨none, []⟩, ⟨some 0, []⟩], [], 0, 0, []⟩
      rfl rfl

/-- A field write through one instance value is visible through any
instance value carrying the same field-table reference. -/
theorem fieldsOf_set_shared (s : State) (i j : InstanceVal) (name : Ident)
    (v : Obj) (hij : i.fields = j.fields)
    (hlt : j.fields < s.fieldTables.length) :
    alistGet? (fieldsOf (instanceSet s i name v) j) name = some v := by
  have hlt2 : i.fields < s.fieldTables.length := by rw [hij]; exact hlt
  simp only [fieldsOf, instanceSet, List.getD, List.get?_eq_getElem?, ← hij,
    List.getElem?_set_eq_of_lt _ hlt2, Option.getD_some]
  exact alistGet?_insert_self _ _ _

/-- Claim C10: the field table of an instance is shared by reference
across every copy of the instance value — bind stores the very same
instance (class and field-table reference) under `this` in a fresh child
environment of the closure without touching the field-table heap, a write
through any reference with the same table is read back through any other,
and in the concrete program a field set through `this` inside a bound
method is observed through the original variable. -/
theorem claim_C10 :
    (∀ (f : Fn) (ins : InstanceVal) (s : State),
        (f.bind ins s).1 = .callable ⟨f.decl, s.envs.length, f.isInitializer⟩
        ∧ (f.bind ins s).2.envs.get? s.envs.length =
            some ⟨some f.closure, [("this", .classInstance ins)]⟩
        ∧ (f.bind ins s).2.fieldTables = s.fieldTables)
    ∧ (∀ s (i j : InstanceVal) name v, i.fields = j.fields →
        j.fields < s.fieldTables.length →
        alistGet? (fieldsOf (instanceSet s i name v) j) name = some v)
    ∧ ((runProgram 100 progFieldShare).toOption.bind
        (fun s => globalValue s "r") = some (.number 7)) := by
  refine ⟨?_, fieldsOf_set_shared, rfl⟩
  intro f ins s
  refine ⟨rfl, ?_, rfl⟩
  simp only [Fn.bind, newEnvRef]
  rw [set_append_length, get?_append_length]

/-- Claim C10 witness: the sharing conjunct applied to two distinct
instance values over the same concrete field table. -/
theorem claim_C10_witness :
    alistGet?
      (fieldsOf
        (instanceSet ⟨[⟨none, []⟩], [[]], 0, 0, []⟩ ⟨.mk "K" [] none, 0⟩ "v"
          (.number 7))
        ⟨.mk "K2" [] none, 0⟩) "v" = some (.number 7) :=
  claim_C10.2.1 ⟨[⟨none, []⟩], [[]], 0, 0, []⟩ ⟨.mk "K" [] none, 0⟩
    ⟨.mk "K2" [] none, 0⟩ "v" (.number 7) rfl (by decide)

/-- Claim C1: the claim describes eval_assign as writing at the distance
the resolver recorded for the assignment expression, falling back to the
global scope, and failing fatally on a name undefined everywhere; the
code instead looks the distance up under the id of the value
subexpression and silently ignores a failed mutate. Three concrete runs
exhibit all three divergences: assigning to a wholly undefined name
succeeds and changes nothing; an unresolved global assignment whose value
subexpression is a resolved local writes into the innermost scope and
leaves the global untouched; and an assignment the resolver resolved to
distance 1 (id 3) writes at the distance 0 recorded for its value
subexpression (id 2). -/
theorem claim_C1_divergence :
    runProgram 100 progAssignUndefined = .ok (initState [])
    ∧ ((runProgram 100 progShadowAssign).toOption.bind
        (fun s => globalValue s "x") = some (.number 1))
    ∧ (resolveProgram 100 progNestedAssign = .ok [(2, 0), (3, 1)]
        ∧ localsGet? [(2, 0), (3, 1)] 3 = some 1)
    ∧ ((runProgram 100 progNestedAssign).toOption.bind
        (fun s => envValuesAt s 1) = some [("x", .number 1)])
    ∧ ((runProgram 100 progNestedAssign).toOption.bind
        (fun s => envValuesAt s 2) = some [("y", .number 5), ("x", .number 5)]) :=
  ⟨rfl, rfl, ⟨rfl, rfl⟩, rfl, rfl⟩

/-- Claim C3 counterexample: the parser desugars a bare `return ;` into a
Return of the null literal, and the resolver statically rejects that form
inside an initializer — so a return without a value inside an initializer
IS a static error, against the second half of the claim. -/
theorem claim_C3_counterexample :
    returnStatement 10 ⟨[⟨.semicolon, ";", 0⟩], 0⟩ =
      .ok (.ret (.mk 0 (.literal .null)), ⟨[], 1⟩)
    ∧ runProgram 100 progInitReturnBare =
        .error (.fatal "cant return from an initializer") :=
  ⟨rfl, rfl⟩

/-- Claim C3 (amended): the Resolver rejects every return statement inside
a class initializer, with or without a value (the parser represents a bare
return as returning null); a resolver error aborts the whole run before
any statement executes, as exhibited on the program returning a value from
`init`. -/
theorem claim_C3 :
    (∀ fuel st v, st.currentFunction = .initializer →
        resolveStmt (fuel + 1) (.ret v) st =
          .error (.fatal "cant return from an initializer"))
    ∧ (∀ fuel p e, resolveProgram fuel p = .error e →
        runProgram fuel p = .error e)
    ∧ runProgram 100 progInitReturnValue =
        .error (.fatal "cant return from an initializer") := by
  refine ⟨?_, ?_, rfl⟩
  · intro fuel st v h
    rw [resolveStmt_ret_succ, h]
    rfl
  · intro fuel p e h
    simp [runProgram, h, throw, throwThe, MonadExceptOf.throw]

/-- Claim C3 witness: the rejection equation at a concrete initializer
context, and the abort-propagation equation at the concrete valued-return
program. -/
theorem claim_C3_witness :
    resolveStmt 1 (.ret (.mk 0 (.literal .null)))
        ⟨[], .initializer, .none, []⟩ =
      .error (.fatal "cant return from an initializer")
    ∧ runProgram 100 progInitReturnValue =
        .error (.fatal "cant return from an initializer") :=
  ⟨claim_C3.1 0 ⟨[], .initializer, .none, []⟩ (.mk 0 (.literal .null)) rfl,
   claim_C3.2.1 100 progInitReturnValue
     (.fatal "cant return from an initializer") rfl⟩
